import Mathlib

/-!
# Verification of the `trumpington_grandma` auto-trading engines

Shallow embedding of the two strategy files of the repository:

* `src/autotrader1.py` — single-pair quoting with opportunistic arbitrage and
  an immediate hedge on every fill (namespace `Trader1`);
* `src/autotrader_delayhedge.py` — inventory-skewed laddering with a
  debounced hedge evaluated on trade ticks (namespace `TraderD`).

Python integers are modelled as `Int` (they are unbounded in the source);
Python floor division `//` is `Int.fdiv`; Python `set` is `Finset Nat`;
Python `dict` (insertion ordered, updated in place) is an association list
with `dset` / `dpop` mirroring `d[k] = v` and `d.pop(k, default)`.
A handler that can raise `KeyError` (an access `d[k]` on a possibly missing
key) returns `Option`: `none` is the raised exception, in which case the
source aborts before performing any state mutation that followed the access.
Side effects on the venue (`send_insert_order`, `send_cancel_order`,
`send_hedge_order`) are collected as a list of `Action`s in source order;
logging calls have no state effect and are dropped.
-/

namespace RTG

/-- The two instruments of `ready_trader_go`: `Instrument.FUTURE = 0` is the
reference (hedge) instrument, `Instrument.ETF = 1` the tradable one. -/
inductive Instrument : Type
  | future
  | etf
  deriving DecidableEq, Repr

/-- Order side. In the library `Side.ASK = Side.SELL` and
`Side.BID = Side.BUY`; the source uses the four names interchangeably. -/
inductive Side : Type
  | sell
  | buy
  deriving DecidableEq, Repr

/-- Order lifespan: `FILL_AND_KILL` executes immediately and never rests,
`GOOD_FOR_DAY` rests until cancelled or fully filled. -/
inductive Lifespan : Type
  | fillAndKill
  | goodForDay
  deriving DecidableEq, Repr

/-- Modelled from the spec: minimum valid bid price bound of the venue
(`MINIMUM_BID` of the `ready_trader_go` library, which is not part of the
repository's `src/`); the spec only requires valid price bounds used to
compute guaranteed-cross hedge prices by rounding to the nearest tick. -/
def MINIMUM_BID : Int := 1

/-- Modelled from the spec: maximum valid ask price bound of the venue
(`MAXIMUM_ASK` of the `ready_trader_go` library, `2^31 - 1`). -/
def MAXIMUM_ASK : Int := 2147483647

/-- A side effect requested from the venue gateway. -/
inductive Action : Type
  | insertOrder (id : Nat) (side : Side) (price : Int) (volume : Int) (lifespan : Lifespan)
  | cancelOrder (id : Nat)
  | hedgeOrder (id : Nat) (side : Side) (price : Int) (volume : Int)
  deriving DecidableEq, Repr

/-- The per-instrument best-price dictionaries `curr_best_bid` /
`curr_best_ask`: a Python dict keyed by the two-member `Instrument`
enumeration, where a key may be absent (never yet recorded). -/
structure BestMap : Type where
  future : Option Int
  etf : Option Int
  deriving DecidableEq, Repr

def BestMap.empty : BestMap := ⟨none, none⟩

def BestMap.set (m : BestMap) : Instrument → Int → BestMap
  | .future, p => { m with future := some p }
  | .etf, p => { m with etf := some p }

/-- Incoming events delivered to a trader, one at a time.  Only index 0 of
the five-element price/volume arrays is carried: both source files read
exclusively `ask_prices[0]`, `ask_volumes[0]`, `bid_prices[0]`,
`bid_volumes[0]` from their array arguments. -/
inductive Event : Type
  | bookUpdate (instrument : Instrument) (seq ask0 askVol0 bid0 bidVol0 : Int)
  | tradeTicks (instrument : Instrument) (seq ask0 askVol0 bid0 bidVol0 : Int)
  | orderFilled (id : Nat) (price volume : Int)
  | orderStatus (id : Nat) (fill remaining fees : Int)
  | hedgeFilled (id : Nat) (price volume : Int)
  | errorMessage (id : Nat)
  deriving DecidableEq, Repr

/-- Python `d[k] = v` on an insertion-ordered dict: update in place if the
key exists, else append at the end. -/
def dset {α β : Type} [DecidableEq α] (k : α) (v : β) : List (α × β) → List (α × β)
  | [] => [(k, v)]
  | (k', v') :: t => if k' = k then (k, v) :: t else (k', v') :: dset k v t

/-- Python `d.pop(k, default)`: the value (or the default) together with the
dict with the key removed. -/
def dpop {α β : Type} [DecidableEq α] (k : α) (dflt : β) : List (α × β) → β × List (α × β)
  | [] => (dflt, [])
  | (k', v') :: t =>
    if k' = k then (v', t)
    else ((dpop k dflt t).1, (k', v') :: (dpop k dflt t).2)

/-- Python `k in d` for a dict. -/
def dmem {α β : Type} [DecidableEq α] (k : α) (l : List (α × β)) : Bool :=
  l.any (fun p => p.1 = k)

/-- Well-formedness of a dict model: no key occurs twice.  Every Python
dict satisfies this, and `dset` / `dpop` preserve it. -/
def DictWF {α β : Type} (l : List (α × β)) : Prop := (l.map Prod.fst).Nodup

end RTG

namespace Trader1

open RTG

/-! ## `src/autotrader1.py` — module constants and state -/

def LOT_SIZE : Int := 5

def POSITION_LIMIT : Int := 90

def TICK_SIZE_IN_CENTS : Int := 100

def MIN_BID_NEAREST_TICK : Int :=
  (MINIMUM_BID + TICK_SIZE_IN_CENTS).fdiv TICK_SIZE_IN_CENTS * TICK_SIZE_IN_CENTS

def MAX_ASK_NEAREST_TICK : Int :=
  MAXIMUM_ASK.fdiv TICK_SIZE_IN_CENTS * TICK_SIZE_IN_CENTS

/-- The mutable attributes set up in `AutoTrader.__init__`.  `nextOrderId`
is the next value the generator `itertools.count(1)` will yield. -/
structure State : Type where
  nextOrderId : Nat
  bids : Finset Nat
  asks : Finset Nat
  ask_id : Nat
  ask_price : Int
  bid_id : Nat
  bid_price : Int
  position : Int
  curr_best_bid : BestMap
  curr_best_ask : BestMap
  curr_sequence : Int
  deriving DecidableEq

/-- The state after `__init__`. -/
def init : State :=
  { nextOrderId := 1, bids := ∅, asks := ∅, ask_id := 0, ask_price := 0,
    bid_id := 0, bid_price := 0, position := 0,
    curr_best_bid := BestMap.empty, curr_best_ask := BestMap.empty,
    curr_sequence := -1 }

/-- `AutoTrader.update_best_record`. -/
def update_best_record (s : State) (instrument : Instrument)
    (sequence new_best_ask new_best_bid : Int) : State :=
  let s1 := { s with curr_sequence := max sequence s.curr_sequence }
  let s2 :=
    if new_best_ask ≠ 0 then
      { s1 with curr_best_ask := s1.curr_best_ask.set instrument new_best_ask }
    else s1
  if new_best_bid ≠ 0 then
    { s2 with curr_best_bid := s2.curr_best_bid.set instrument new_best_bid }
  else s2

/-- `AutoTrader.on_order_status_message`. -/
def on_order_status_message (s : State) (client_order_id : Nat)
    (fill_volume remaining_volume fees : Int) : State :=
  if remaining_volume = 0 then
    let s1 :=
      if client_order_id = s.bid_id then { s with bid_id := 0 }
      else if client_order_id = s.ask_id then { s with ask_id := 0 }
      else s
    { s1 with bids := s1.bids.erase client_order_id,
              asks := s1.asks.erase client_order_id }
  else s

/-- `AutoTrader.on_error_message` (the log call has no state effect). -/
def on_error_message (s : State) (client_order_id : Nat) : State :=
  if client_order_id ≠ 0 ∧ (client_order_id ∈ s.bids ∨ client_order_id ∈ s.asks) then
    on_order_status_message s client_order_id 0 0 0
  else s

/-- `AutoTrader.on_order_filled_message`: adjust the position and send the
immediate hedge order on the FUTURE. -/
def on_order_filled_message (s : State) (client_order_id : Nat)
    (price volume : Int) : State × List Action :=
  if client_order_id ∈ s.bids then
    ({ s with position := s.position + volume, nextOrderId := s.nextOrderId + 1 },
     [Action.hedgeOrder s.nextOrderId Side.sell MIN_BID_NEAREST_TICK volume])
  else if client_order_id ∈ s.asks then
    ({ s with position := s.position - volume, nextOrderId := s.nextOrderId + 1 },
     [Action.hedgeOrder s.nextOrderId Side.buy MAX_ASK_NEAREST_TICK volume])
  else (s, [])

/-- First `if` of the reconciliation block (lines 135–138): cancel the
resting bid when the new target bid price matches neither its price nor 0. -/
def cancelBidStage (s : State) (new_bid_price : Int) : State × List Action :=
  if s.bid_id ≠ 0 ∧ new_bid_price ≠ s.bid_price ∧ new_bid_price ≠ 0 then
    ({ s with bid_id := 0 }, [Action.cancelOrder s.bid_id])
  else (s, [])

/-- Second `if` (lines 140–143): the ask-side cancel. -/
def cancelAskStage (s : State) (new_ask_price : Int) : State × List Action :=
  if s.ask_id ≠ 0 ∧ new_ask_price ≠ s.ask_price ∧ new_ask_price ≠ 0 then
    ({ s with ask_id := 0 }, [Action.cancelOrder s.ask_id])
  else (s, [])

/-- Third `if` (lines 145–152): place a GOOD_FOR_DAY bid when the slot is
free, the target is nonzero and long capacity remains, clipped to
`min(LOT_SIZE, POSITION_LIMIT - position)`. -/
def insertBidStage (s : State) (new_bid_price : Int) : State × List Action :=
  if s.bid_id = 0 ∧ new_bid_price ≠ 0 ∧ s.position < POSITION_LIMIT then
    ({ s with nextOrderId := s.nextOrderId + 1, bid_id := s.nextOrderId,
              bid_price := new_bid_price, bids := insert s.nextOrderId s.bids },
     [Action.insertOrder s.nextOrderId Side.buy new_bid_price
        (min LOT_SIZE (POSITION_LIMIT - s.position)) Lifespan.goodForDay])
  else (s, [])

/-- Fourth `if` (lines 154–161): the ask-side insert, clipped to
`min(LOT_SIZE, position + POSITION_LIMIT)`. -/
def insertAskStage (s : State) (new_ask_price : Int) : State × List Action :=
  if s.ask_id = 0 ∧ new_ask_price ≠ 0 ∧ s.position > -POSITION_LIMIT then
    ({ s with nextOrderId := s.nextOrderId + 1, ask_id := s.nextOrderId,
              ask_price := new_ask_price, asks := insert s.nextOrderId s.asks },
     [Action.insertOrder s.nextOrderId Side.sell new_ask_price
        (min LOT_SIZE (s.position + POSITION_LIMIT)) Lifespan.goodForDay])
  else (s, [])

/-- Lines 134–161 of `on_order_book_update_message` ("ensure there is one
pair of orders only"): the four `if` blocks in source order — cancel a
resting order whose price no longer matches the target, then place a new
order on each side that is free. -/
def reconcile (s : State) (new_bid_price new_ask_price : Int) : State × List Action :=
  let r1 := cancelBidStage s new_bid_price
  let r2 := cancelAskStage r1.1 new_ask_price
  let r3 := insertBidStage r2.1 new_bid_price
  let r4 := insertAskStage r3.1 new_ask_price
  (r4.1, r1.2 ++ r2.2 ++ r3.2 ++ r4.2)

/-- The ETF-only decision part of `on_order_book_update_message` (lines
88–132): returns the updated state, the actions sent so far, and the pair
`(new_bid_price, new_ask_price)`; `none` is the `KeyError` raised by
`self.curr_best_ask[Instrument.FUTURE]` / `self.curr_best_bid[...]` when the
FUTURE has no recorded price.  The source compares float midpoint distances
`abs((futAsk+futBid)/2 - bid0)` and `abs(... - ask0)`; both are exactly
representable, so the comparison is modelled by the doubled integer
distances. -/
def quoteDecision (s : State) (ask0 bid0 bidVol0 : Int) :
    Option (State × List Action × Int × Int) :=
  if bid0 ≠ 0 ∧ ask0 ≠ 0 then
    match s.curr_best_ask.future with
    | none => none
    | some futAsk =>
      if bid0 - TICK_SIZE_IN_CENTS > futAsk ∧ s.position > -POSITION_LIMIT then
        let this_id := s.nextOrderId
        let order_size := min bidVol0 (s.position + POSITION_LIMIT)
        some ({ s with nextOrderId := this_id + 1, asks := insert this_id s.asks },
              [Action.insertOrder this_id Side.sell bid0 order_size Lifespan.fillAndKill],
              futAsk, 0)
      else
        match s.curr_best_bid.future with
        | none => none
        | some futBid =>
          if ask0 + TICK_SIZE_IN_CENTS < futBid ∧ s.position < POSITION_LIMIT then
            let this_id := s.nextOrderId
            let order_size := min bidVol0 (-s.position + POSITION_LIMIT)
            some ({ s with nextOrderId := this_id + 1, bids := insert this_id s.bids },
                  [Action.insertOrder this_id Side.buy ask0 order_size Lifespan.fillAndKill],
                  0, futBid)
          else
            if |futAsk + futBid - 2 * bid0| > |futAsk + futBid - 2 * ask0| then
              some (s, [], bid0, max (bid0 + TICK_SIZE_IN_CENTS) futAsk)
            else
              some (s, [], min (ask0 - TICK_SIZE_IN_CENTS) futBid, ask0)
  else
    some (s, [], 0, 0)

/-- `AutoTrader.on_order_book_update_message`. -/
def on_order_book_update_message (s : State) (instrument : Instrument)
    (sequence_number ask0 askVol0 bid0 bidVol0 : Int) :
    Option (State × List Action) :=
  if instrument = Instrument.etf then
    match quoteDecision s ask0 bid0 bidVol0 with
    | none => none
    | some (s1, acts1, new_bid_price, new_ask_price) =>
      let r := reconcile s1 new_bid_price new_ask_price
      some (update_best_record r.1 instrument sequence_number ask0 bid0, acts1 ++ r.2)
  else
    some (update_best_record s instrument sequence_number ask0 bid0, [])

/-- `AutoTrader.on_trade_ticks_message`. -/
def on_trade_ticks_message (s : State) (instrument : Instrument)
    (sequence ask0 bid0 : Int) : State :=
  update_best_record s instrument sequence ask0 bid0

/-- Dispatch one incoming event to its handler (`on_hedge_filled_message`
only logs). -/
def step (s : State) (e : Event) : Option (State × List Action) :=
  match e with
  | .bookUpdate i seq a av b bv => on_order_book_update_message s i seq a av b bv
  | .tradeTicks i seq a _ b _ => some (on_trade_ticks_message s i seq a b, [])
  | .orderFilled id p v => some (on_order_filled_message s id p v)
  | .orderStatus id f r fees => some (on_order_status_message s id f r fees, [])
  | .hedgeFilled _ _ _ => some (s, [])
  | .errorMessage id => some (on_error_message s id, [])

end Trader1

namespace TraderD

open RTG

/-! ## `src/autotrader_delayhedge.py` — module constants and state -/

def LOT_SIZE : Int := 15

def POSITION_LIMIT : Int := 90

def TICK_SIZE_IN_CENTS : Int := 100

def MIN_BID_NEAREST_TICK : Int :=
  (MINIMUM_BID + TICK_SIZE_IN_CENTS).fdiv TICK_SIZE_IN_CENTS * TICK_SIZE_IN_CENTS

def MAX_ASK_NEAREST_TICK : Int :=
  MAXIMUM_ASK.fdiv TICK_SIZE_IN_CENTS * TICK_SIZE_IN_CENTS

def NLADDER : Int := 3

def SPREAD : Int := 3

/-- The mutable attributes set up in `AutoTrader.__init__` of the
delayed-hedge variant.  `bids` / `asks` map own order id → price;
`bid_prices` / `ask_prices` map price → own order id. -/
structure State : Type where
  nextOrderId : Nat
  bids : List (Nat × Int)
  asks : List (Nat × Int)
  position : Int
  position_future : Int
  curr_best_bid : BestMap
  curr_best_ask : BestMap
  curr_sequence : Int
  ask_prices : List (Int × Nat)
  bid_prices : List (Int × Nat)
  hedge_timer : Int
  deriving DecidableEq, Repr

/-- The state after `__init__`. -/
def init : State :=
  { nextOrderId := 1, bids := [], asks := [], position := 0, position_future := 0,
    curr_best_bid := BestMap.empty, curr_best_ask := BestMap.empty,
    curr_sequence := -1, ask_prices := [], bid_prices := [], hedge_timer := 0 }

/-- `AutoTrader.update_best_record`. -/
def update_best_record (s : State) (instrument : Instrument)
    (sequence new_best_ask new_best_bid : Int) : State :=
  let s1 := { s with curr_sequence := max sequence s.curr_sequence }
  let s2 :=
    if new_best_ask ≠ 0 then
      { s1 with curr_best_ask := s1.curr_best_ask.set instrument new_best_ask }
    else s1
  if new_best_bid ≠ 0 then
    { s2 with curr_best_bid := s2.curr_best_bid.set instrument new_best_bid }
  else s2

/-- `AutoTrader.on_order_status_message`: on zero remaining volume, pop the
id from both `bids` and `asks` (defaulting to −1), then free the price slot
`max` of the two pop results in both price→id maps. -/
def on_order_status_message (s : State) (client_order_id : Nat)
    (fill_volume remaining_volume fees : Int) : State :=
  if remaining_volume = 0 then
    let pb := dpop client_order_id (-1 : Int) s.bids
    let pa := dpop client_order_id (-1 : Int) s.asks
    let price := max pb.1 pa.1
    { s with bids := pb.2, asks := pa.2,
             bid_prices := (dpop price 0 s.bid_prices).2,
             ask_prices := (dpop price 0 s.ask_prices).2 }
  else s

/-- `AutoTrader.on_error_message`. -/
def on_error_message (s : State) (client_order_id : Nat) : State :=
  if client_order_id ≠ 0 ∧ (dmem client_order_id s.bids ∨ dmem client_order_id s.asks) then
    on_order_status_message s client_order_id 0 0 0
  else s

/-- `AutoTrader.on_order_filled_message`: position bookkeeping only; the
immediate hedge of the single-pair variant is commented out in this file,
and an unattributable fill is only warned about. -/
def on_order_filled_message (s : State) (client_order_id : Nat)
    (price volume : Int) : State :=
  if dmem client_order_id s.bids then
    { s with position := s.position + volume }
  else if dmem client_order_id s.asks then
    { s with position := s.position - volume }
  else s

/-- `np.arange(0, NLADDER)` with `NLADDER = 3`. -/
def arangeUp : List Int := [0, 1, 2]

/-- `np.arange(0, -NLADDER, -1)` with `NLADDER = 3`. -/
def arangeDown : List Int := [0, -1, -2]

/-- A ladder of quoted prices: `anchor + k*TICK_SIZE_IN_CENTS + adj` for
each offset `k`. -/
def ladder (anchor adj : Int) (ks : List Int) : List Int :=
  ks.map (fun k => anchor + k * TICK_SIZE_IN_CENTS + adj)

/-- The cancel loop over one side's resting `price → id` dict (lines
162–174): iterate the resting entries in insertion order; a resting price
found in the target list consumes (removes) its first occurrence there,
any other resting entry gets a cancel.  Returns the surviving target
prices and the cancels in emission order.  The resting dicts themselves are
not mutated ("leave deletion to status update"). -/
def reconcileSide (resting : List (Int × Nat)) (targets : List Int) :
    List Int × List Action :=
  match resting with
  | [] => (targets, [])
  | (price, oid) :: rest =>
    if price ∈ targets then
      reconcileSide rest (targets.erase price)
    else
      ((reconcileSide rest targets).1,
       Action.cancelOrder oid :: (reconcileSide rest targets).2)

/-- The insert loop over one side's surviving target prices (lines 180–194):
each price gets a fresh id and a GOOD_FOR_DAY order of the given size, and
both dicts are updated.  Returns the next fresh id, the updated price→id
and id→price dicts, and the inserts in emission order. -/
def insertLadder (nextId : Nat) (side : Side) (size : Int) (targets : List Int)
    (price_map : List (Int × Nat)) (oid_map : List (Nat × Int)) :
    Nat × List (Int × Nat) × List (Nat × Int) × List Action :=
  match targets with
  | [] => (nextId, price_map, oid_map, [])
  | price :: rest =>
    let oid := nextId
    let r := insertLadder (nextId + 1) side size rest
      (dset price oid price_map) (dset oid price oid_map)
    (r.1, r.2.1, r.2.2.1,
     Action.insertOrder oid side price size Lifespan.goodForDay :: r.2.2.2)

/-- The ETF-only decision part of `on_order_book_update_message` (lines
95–156): state so far, actions so far, and the target price lists
`(new_bid_price, new_ask_price)`; `none` is the `KeyError` on a missing
FUTURE best price.  The float midpoint comparison is modelled by doubled
integer distances as in `Trader1.quoteDecision`. -/
def quoteDecision (s : State) (ask0 bid0 bidVol0 : Int) :
    Option (State × List Action × List Int × List Int) :=
  let price_adjustment := -(s.position.fdiv 40) * TICK_SIZE_IN_CENTS
  if bid0 ≠ 0 ∧ ask0 ≠ 0 then
    match s.curr_best_ask.future with
    | none => none
    | some futAsk =>
      if bid0 - TICK_SIZE_IN_CENTS > futAsk ∧ s.position > -POSITION_LIMIT then
        let this_id := s.nextOrderId
        let order_size := min bidVol0 (min (s.position + POSITION_LIMIT) LOT_SIZE)
        some ({ s with nextOrderId := this_id + 1, asks := dset this_id bid0 s.asks },
              [Action.insertOrder this_id Side.sell bid0 order_size Lifespan.fillAndKill],
              [], [])
      else
        match s.curr_best_bid.future with
        | none => none
        | some futBid =>
          if ask0 + TICK_SIZE_IN_CENTS < futBid ∧ s.position < POSITION_LIMIT then
            let this_id := s.nextOrderId
            let order_size := min bidVol0 (min (-s.position + POSITION_LIMIT) LOT_SIZE)
            some ({ s with nextOrderId := this_id + 1, bids := dset this_id ask0 s.bids },
                  [Action.insertOrder this_id Side.buy ask0 order_size Lifespan.fillAndKill],
                  [], [])
          else
            if |futAsk + futBid - 2 * bid0| > |futAsk + futBid - 2 * ask0| then
              some (s, [],
                    ladder bid0 price_adjustment arangeDown,
                    ladder (max (bid0 + TICK_SIZE_IN_CENTS) futAsk) price_adjustment arangeUp)
            else
              some (s, [],
                    ladder (min (ask0 - TICK_SIZE_IN_CENTS) futBid) price_adjustment arangeDown,
                    ladder ask0 price_adjustment arangeUp)
  else
    some (s, [], [], [])

/-- `AutoTrader.on_order_book_update_message`. -/
def on_order_book_update_message (s : State) (instrument : Instrument)
    (sequence_number ask0 askVol0 bid0 bidVol0 : Int) :
    Option (State × List Action) :=
  if instrument = Instrument.etf then
    match quoteDecision s ask0 bid0 bidVol0 with
    | none => none
    | some (s1, acts1, new_bid_price, new_ask_price) =>
      let ra := reconcileSide s1.ask_prices new_ask_price
      let rb := reconcileSide s1.bid_prices new_bid_price
      let bid_size := (min LOT_SIZE (POSITION_LIMIT - s1.position -
        ((s1.bids.length : Int) * LOT_SIZE).fdiv NLADDER)).fdiv NLADDER
      let ask_size := (min LOT_SIZE (s1.position + POSITION_LIMIT -
        ((s1.asks.length : Int) * LOT_SIZE).fdiv NLADDER)).fdiv NLADDER
      let ib :=
        if bid_size > 0 ∧ rb.1.length > 0 then
          insertLadder s1.nextOrderId Side.buy bid_size rb.1 s1.bid_prices s1.bids
        else (s1.nextOrderId, s1.bid_prices, s1.bids, [])
      let ia :=
        if ask_size > 0 ∧ ra.1.length > 0 then
          insertLadder ib.1 Side.sell ask_size ra.1 s1.ask_prices s1.asks
        else (ib.1, s1.ask_prices, s1.asks, [])
      let s2 := { s1 with nextOrderId := ia.1,
                          bid_prices := ib.2.1, bids := ib.2.2.1,
                          ask_prices := ia.2.1, asks := ia.2.2.1 }
      let s3 := update_best_record s2 instrument sequence_number ask0 bid0
      some ({ s3 with hedge_timer := s3.hedge_timer + 1 },
            acts1 ++ ra.2 ++ rb.2 ++ ib.2.2.2 ++ ia.2.2.2)
  else
    let s3 := update_best_record s instrument sequence_number ask0 bid0
    some ({ s3 with hedge_timer := s3.hedge_timer + 1 }, [])

/-- `AutoTrader.on_trade_ticks_message`: the debounced hedge.  `delta` is
read before the best-price update; `hedge_timer` is zeroed just before the
multiplier test, so the multiplier always evaluates to 1.  The source then
evaluates the two hedge conditions in sequence, each reading two best-price
dict entries; the model requires all four to be recorded (a missing one
raises `KeyError` in the source and processing aborts). -/
def on_trade_ticks_message (s : State) (instrument : Instrument)
    (sequence ask0 bid0 : Int) : Option (State × List Action) :=
  let delta_position := s.position + s.position_future
  let s1 := update_best_record s instrument sequence ask0 bid0
  let s2 := { s1 with hedge_timer := 0 }
  let multiplier : Int := if s2.hedge_timer < 60 then 1 else 0
  match s2.curr_best_bid.etf, s2.curr_best_ask.future,
        s2.curr_best_bid.future, s2.curr_best_ask.etf with
  | some etfBid, some futAsk, some futBid, some etfAsk =>
    let r1 : State × List Action :=
      if etfBid - futAsk > multiplier * TICK_SIZE_IN_CENTS ∧ delta_position < 0 then
        ({ s2 with nextOrderId := s2.nextOrderId + 1,
                   position_future := s2.position_future + -delta_position,
                   hedge_timer := 0 },
         [Action.hedgeOrder s2.nextOrderId Side.buy MAX_ASK_NEAREST_TICK (-delta_position)])
      else (s2, [])
    if futBid - etfAsk > multiplier * TICK_SIZE_IN_CENTS ∧ delta_position > 0 then
      some ({ r1.1 with nextOrderId := r1.1.nextOrderId + 1,
                        position_future := r1.1.position_future - delta_position,
                        hedge_timer := 0 },
            r1.2 ++ [Action.hedgeOrder r1.1.nextOrderId Side.sell MIN_BID_NEAREST_TICK delta_position])
    else some (r1.1, r1.2)
  | _, _, _, _ => none

/-- Dispatch one incoming event to its handler. -/
def step (s : State) (e : Event) : Option (State × List Action) :=
  match e with
  | .bookUpdate i seq a av b bv => on_order_book_update_message s i seq a av b bv
  | .tradeTicks i seq a _ b _ => on_trade_ticks_message s i seq a b
  | .orderFilled id p v => some (on_order_filled_message s id p v, [])
  | .orderStatus id f r fees => some (on_order_status_message s id f r fees, [])
  | .hedgeFilled _ _ _ => some (s, [])
  | .errorMessage id => some (on_error_message s id, [])

end TraderD

namespace Trader1

open RTG

/-! ## Environment model for runs of the single-pair strategy

A *fill-valid run* replays a list of events from a state while keeping, for
every order the engine has inserted, its remaining (unfilled) volume; a
fill event is only accepted for an order the engine actually sent, with a
positive volume not exceeding what is still open on it.  Cancels do not
retire an order here: a cancellation is fire-and-forget and can lose the
race against an in-flight fill, so the venue may legitimately still fill a
cancelled order. -/

/-- Record the volumes of the orders inserted by a batch of actions. -/
def addInserts (out : List (Nat × Int)) (acts : List Action) : List (Nat × Int) :=
  acts.foldl
    (fun o a =>
      match a with
      | .insertOrder id _ _ vol _ => (id, vol) :: o
      | _ => o)
    out

/-- Consume a fill of `vol` lots against order `id`: accepted only if the
order is known and has at least `vol` lots still open. -/
def takeFill (id : Nat) (vol : Int) : List (Nat × Int) → Option (List (Nat × Int))
  | [] => none
  | (i, r) :: t =>
    if i = id then
      if 0 < vol ∧ vol ≤ r then some ((i, r - vol) :: t) else none
    else
      match takeFill id vol t with
      | none => none
      | some t' => some ((i, r) :: t')

/-- Replay a list of events, validating every fill against the orders the
engine inserted; `none` when a fill is not justified or a handler fails. -/
def runTrace : State → List (Nat × Int) → List Event → Option State
  | s, _, [] => some s
  | s, out, e :: rest =>
    let outOk : Option (List (Nat × Int)) :=
      match e with
      | .orderFilled id _ vol => takeFill id vol out
      | _ => some out
    match outOk with
    | none => none
    | some out' =>
      match step s e with
      | none => none
      | some (s', acts) => runTrace s' (addInserts out' acts) rest

/-! ## Synchronous venue model for the resting-order invariant

The venue book keeps the ids of the engine's own resting GOOD_FOR_DAY
orders per side.  An insert with lifespan GOOD_FOR_DAY rests;
FILL_AND_KILL never rests; a cancel removes the order; an order-status
event with zero remaining volume (full fill, cancel confirmation or
fill-and-kill expiry) and an order-specific error (the order was rejected
or already gone) remove it as well. -/

structure Venue : Type where
  gfdBids : List Nat
  gfdAsks : List Nat
  deriving DecidableEq, Repr

def Venue.empty : Venue := ⟨[], []⟩

def applyAction (v : Venue) (a : Action) : Venue :=
  match a with
  | .insertOrder id side _ _ .goodForDay =>
    match side with
    | .buy => { v with gfdBids := v.gfdBids ++ [id] }
    | .sell => { v with gfdAsks := v.gfdAsks ++ [id] }
  | .insertOrder _ _ _ _ .fillAndKill => v
  | .cancelOrder id =>
    { gfdBids := v.gfdBids.filter (fun i => i ≠ id),
      gfdAsks := v.gfdAsks.filter (fun i => i ≠ id) }
  | .hedgeOrder _ _ _ _ => v

def venueRemove (v : Venue) (id : Nat) : Venue :=
  { gfdBids := v.gfdBids.filter (fun i => i ≠ id),
    gfdAsks := v.gfdAsks.filter (fun i => i ≠ id) }

def venueEvent (v : Venue) (e : Event) : Venue :=
  match e with
  | .orderStatus id _ r _ => if r = 0 then venueRemove v id else v
  | .errorMessage id => venueRemove v id
  | _ => v

/-- One combined step: the venue-side effect of the event, then the engine's
handler, then the engine's requested actions applied to the venue.  A
handler that raises leaves the engine state unchanged and sends nothing
(the `KeyError` in `on_order_book_update_message` fires before any state
mutation or send of that handler). -/
def stepWithVenue (s : State) (v : Venue) (e : Event) : State × Venue :=
  let v1 := venueEvent v e
  match step s e with
  | none => (s, v1)
  | some (s', acts) => (s', acts.foldl applyAction v1)

/-- Coupling invariant between the engine state and the venue book: the
engine's `bid_id` / `ask_id` (0 = free slot) are exactly the resting
GOOD_FOR_DAY orders; a nonzero slot id is tracked in the corresponding id
set; slot ids are below the id generator (ids are handed out once); and
the two slots never hold the same nonzero id. -/
def Inv (s : State) (v : Venue) : Prop :=
  v.gfdBids = (if s.bid_id = 0 then [] else [s.bid_id]) ∧
  v.gfdAsks = (if s.ask_id = 0 then [] else [s.ask_id]) ∧
  (s.bid_id ≠ 0 → s.bid_id ∈ s.bids) ∧
  (s.ask_id ≠ 0 → s.ask_id ∈ s.asks) ∧
  s.bid_id < s.nextOrderId ∧
  s.ask_id < s.nextOrderId ∧
  (s.bid_id ≠ 0 → s.ask_id ≠ 0 → s.bid_id ≠ s.ask_id)

end Trader1

namespace RTG

/-- Is an action a FILL_AND_KILL order insertion? -/
def isFakInsert : Action → Bool
  | .insertOrder _ _ _ _ .fillAndKill => true
  | _ => false

/-- Is an action an order insertion (of either lifespan)? -/
def isInsert : Action → Bool
  | .insertOrder _ _ _ _ _ => true
  | _ => false

/-- Is an action a hedge order? -/
def isHedge : Action → Bool
  | .hedgeOrder _ _ _ _ => true
  | _ => false

/-- Is an action a cancellation? -/
def isCancel : Action → Bool
  | .cancelOrder _ => true
  | _ => false

end RTG

/-! ## Concrete fixture states and traces used by witnesses and
counterexamples -/

/-- A five-event trace of the single-pair strategy that overruns the
position limit: a FUTURE book (10000, 10100) is recorded; an ETF book
(10300, 10400) triggers the arbitrage FILL_AND_KILL sell of 90 lots
(id 1); a later no-arbitrage ETF book (10000, 10100) additionally places a
resting GOOD_FOR_DAY ask of 5 lots (id 4) while the first sell is still
unfilled; then both sells fill completely. -/
def overfillEvents : List RTG.Event :=
  [ .bookUpdate .future 1 10100 50 10000 50,
    .bookUpdate .etf 2 10400 200 10300 200,
    .bookUpdate .etf 3 10100 50 10000 50,
    .orderFilled 1 10300 90,
    .orderFilled 4 10100 5 ]

/-- Single-pair state with the FUTURE best bid/ask recorded as
(10000, 10100). -/
def c5State : Trader1.State :=
  { Trader1.init with
    curr_best_bid := { future := some 10000, etf := none },
    curr_best_ask := { future := some 10100, etf := none } }

/-- Single-pair state with the FUTURE best bid/ask recorded as
(10500, 10600), so that an ETF ask of 10000 is an arbitrage buy. -/
def c6State : Trader1.State :=
  { Trader1.init with
    curr_best_bid := { future := some 10500, etf := none },
    curr_best_ask := { future := some 10600, etf := none } }

/-- Ladder-strategy state with the FUTURE best bid/ask recorded as
(10500, 10600). -/
def c6StateD : TraderD.State :=
  { TraderD.init with
    curr_best_bid := { future := some 10500, etf := none },
    curr_best_ask := { future := some 10600, etf := none } }

/-- Single-pair state with one resting bid (id 5 at 10000). -/
def c2State : Trader1.State :=
  { Trader1.init with
    nextOrderId := 6, bid_id := 5, bid_price := 10000, bids := {5} }

/-- Ladder-strategy state with two resting asks and one resting bid. -/
def c2StateD : TraderD.State :=
  { TraderD.init with
    nextOrderId := 6,
    asks := [(3, 10100), (4, 10200)], bids := [(5, 9900)],
    ask_prices := [(10100, 3), (10200, 4)], bid_prices := [(9900, 5)] }

/-- Single-pair state tracking buy order 7 and sell order 9. -/
def c3State : Trader1.State :=
  { Trader1.init with nextOrderId := 10, bids := {7}, asks := {9} }

/-- Single-pair state with resting bid 3; ladder state tracking bid order 3
at price 10100. -/
def c7State : Trader1.State :=
  { Trader1.init with
    nextOrderId := 6, bid_id := 3, bid_price := 10100, bids := {3} }

/-- Ladder-strategy state tracking bid order 3 at price 10100. -/
def c7StateD : TraderD.State :=
  { TraderD.init with
    nextOrderId := 6, bids := [(3, 10100)], bid_prices := [(10100, 3)] }

/-- Ladder-strategy state short 7 ETF lots against 2 hedged lots, with all
four best prices recorded and the books crossed so a hedge fires. -/
def c10State : TraderD.State :=
  { TraderD.init with
    position := -7, position_future := 2,
    curr_best_bid := { future := some 10000, etf := some 10300 },
    curr_best_ask := { future := some 10100, etf := some 10400 } }

/-! # Theorems

First the association-list (Python dict) lemmas, then per-handler helper
lemmas, then one theorem (plus witness or counterexample) per claim. -/

namespace RTG

theorem dmem_eq_false_iff {α β : Type} [DecidableEq α] (k : α) (l : List (α × β)) :
    dmem k l = false ↔ ∀ p ∈ l, p.1 ≠ k := by
  simp [dmem]

theorem dpop_of_dmem_eq_false {α β : Type} [DecidableEq α] (k : α) (dflt : β)
    (l : List (α × β)) (h : dmem k l = false) : dpop k dflt l = (dflt, l) := by
  induction l with
  | nil => rfl
  | cons p t ih =>
    rw [dmem_eq_false_iff] at h
    have hp : p.1 ≠ k := h p (List.mem_cons_self p t)
    have ht : dmem k t = false := by
      rw [dmem_eq_false_iff]
      exact fun q hq => h q (List.mem_cons_of_mem p hq)
    cases p with
    | mk k' v' =>
      simp only [dpop, if_neg hp, ih ht]

theorem dmem_dpop_eq_false {α β : Type} [DecidableEq α] (k : α) (dflt : β)
    (l : List (α × β)) (hwf : DictWF l) : dmem k (dpop k dflt l).2 = false := by
  induction l with
  | nil => rfl
  | cons p t ih =>
    cases p with
    | mk k' v' =>
      simp only [DictWF, List.map_cons, List.nodup_cons, List.mem_map] at hwf
      by_cases h : k' = k
      · have h2 : dpop k dflt ((k', v') :: t) = (v', t) := by
          simp [dpop, h]
        rw [h2, dmem_eq_false_iff]
        refine fun q hq hc => hwf.1 ⟨q, hq, ?_⟩
        exact hc.trans h.symm
      · have h2 : dpop k dflt ((k', v') :: t) =
            ((dpop k dflt t).1, (k', v') :: (dpop k dflt t).2) := by
          simp [dpop, h]
        rw [h2]
        simp only [dmem, List.any_cons, Bool.or_eq_false_iff]
        refine ⟨decide_eq_false h, ?_⟩
        simpa [dmem] using ih hwf.2

theorem dpop_mem_subset {α β : Type} [DecidableEq α] (k : α) (dflt : β)
    (l : List (α × β)) : ∀ q ∈ (dpop k dflt l).2, q ∈ l := by
  induction l with
  | nil =>
    intro q hq
    simp only [dpop, List.not_mem_nil] at hq
  | cons p t ih =>
    cases p with
    | mk k' v' =>
      by_cases h : k' = k
      · subst h
        simp only [dpop, if_pos rfl]
        intro q hq
        exact List.mem_cons_of_mem _ hq
      · simp only [dpop, if_neg h]
        intro q hq
        rcases List.mem_cons.mp hq with h1 | h2
        · exact h1 ▸ List.mem_cons_self _ _
        · exact List.mem_cons_of_mem _ (ih q h2)

theorem dmem_dpop_of_dmem_eq_false {α β : Type} [DecidableEq α] (k k' : α)
    (dflt : β) (l : List (α × β)) (h : dmem k l = false) :
    dmem k (dpop k' dflt l).2 = false := by
  rw [dmem_eq_false_iff] at h ⊢
  exact fun q hq => h q (dpop_mem_subset k' dflt l q hq)

theorem dpop_fst_of_mem {α β : Type} [DecidableEq α] (k : α) (v : β) (dflt : β)
    (l : List (α × β)) (hwf : DictWF l) (hmem : (k, v) ∈ l) :
    (dpop k dflt l).1 = v := by
  induction l with
  | nil => exact absurd hmem (List.not_mem_nil _)
  | cons p t ih =>
    cases p with
    | mk k' v' =>
      simp only [DictWF, List.map_cons, List.nodup_cons, List.mem_map] at hwf
      by_cases h : k' = k
      · subst h
        rcases List.mem_cons.mp hmem with h1 | h2
        · simp only [dpop, if_pos rfl]
          exact (Prod.mk.injEq _ _ _ _ ▸ h1).2.symm
        · exact absurd ⟨(k', v), h2, rfl⟩ hwf.1
      · simp only [dpop, if_neg h]
        rcases List.mem_cons.mp hmem with h1 | h2
        · exact absurd (congrArg Prod.fst h1).symm h
        · exact ih hwf.2 h2

end RTG

/-! ## Helper lemmas about `update_best_record`: it touches only the
best-price maps and the sequence cursor. -/

theorem trader1_update_best_fields (s : Trader1.State) (i : RTG.Instrument)
    (q a b : Int) :
    (Trader1.update_best_record s i q a b).nextOrderId = s.nextOrderId ∧
    (Trader1.update_best_record s i q a b).bids = s.bids ∧
    (Trader1.update_best_record s i q a b).asks = s.asks ∧
    (Trader1.update_best_record s i q a b).ask_id = s.ask_id ∧
    (Trader1.update_best_record s i q a b).ask_price = s.ask_price ∧
    (Trader1.update_best_record s i q a b).bid_id = s.bid_id ∧
    (Trader1.update_best_record s i q a b).bid_price = s.bid_price ∧
    (Trader1.update_best_record s i q a b).position = s.position := by
  unfold Trader1.update_best_record
  split_ifs <;> simp

theorem traderD_update_best_fields (s : TraderD.State) (i : RTG.Instrument)
    (q a b : Int) :
    (TraderD.update_best_record s i q a b).nextOrderId = s.nextOrderId ∧
    (TraderD.update_best_record s i q a b).bids = s.bids ∧
    (TraderD.update_best_record s i q a b).asks = s.asks ∧
    (TraderD.update_best_record s i q a b).position = s.position ∧
    (TraderD.update_best_record s i q a b).position_future = s.position_future ∧
    (TraderD.update_best_record s i q a b).ask_prices = s.ask_prices ∧
    (TraderD.update_best_record s i q a b).bid_prices = s.bid_prices ∧
    (TraderD.update_best_record s i q a b).hedge_timer = s.hedge_timer := by
  unfold TraderD.update_best_record
  split_ifs <;> simp

/-- **C3.** Immediate-hedge policy of the single-pair strategy: a fill of a
tracked buy order increases the position by exactly the filled volume and
sends exactly one hedge sell on the FUTURE for that volume at
`MIN_BID_NEAREST_TICK`; a fill of a tracked sell order (reached when the id
is not a tracked buy) decreases the position by the filled volume and sends
exactly one hedge buy at `MAX_ASK_NEAREST_TICK`. -/
theorem c3_immediate_hedge_on_fill (s : Trader1.State) (id : Nat)
    (price volume : Int) :
    (id ∈ s.bids →
      (Trader1.on_order_filled_message s id price volume).1.position =
        s.position + volume ∧
      (Trader1.on_order_filled_message s id price volume).2 =
        [RTG.Action.hedgeOrder s.nextOrderId RTG.Side.sell
          Trader1.MIN_BID_NEAREST_TICK volume]) ∧
    (id ∉ s.bids → id ∈ s.asks →
      (Trader1.on_order_filled_message s id price volume).1.position =
        s.position - volume ∧
      (Trader1.on_order_filled_message s id price volume).2 =
        [RTG.Action.hedgeOrder s.nextOrderId RTG.Side.buy
          Trader1.MAX_ASK_NEAREST_TICK volume]) := by
  constructor
  · intro hb
    simp [Trader1.on_order_filled_message, hb]
  · intro hb ha
    simp [Trader1.on_order_filled_message, hb, ha]

/-- Witness for C3 at a concrete state: buy order 7 filled for 5 lots, sell
order 9 filled for 4 lots. -/
theorem c3_immediate_hedge_on_fill_witness :
    ((Trader1.on_order_filled_message c3State 7 10200 5).1.position = 0 + 5 ∧
      (Trader1.on_order_filled_message c3State 7 10200 5).2 =
        [RTG.Action.hedgeOrder 10 RTG.Side.sell Trader1.MIN_BID_NEAREST_TICK 5]) ∧
    ((Trader1.on_order_filled_message c3State 9 10200 4).1.position = 0 - 4 ∧
      (Trader1.on_order_filled_message c3State 9 10200 4).2 =
        [RTG.Action.hedgeOrder 10 RTG.Side.buy Trader1.MAX_ASK_NEAREST_TICK 4]) :=
  ⟨(c3_immediate_hedge_on_fill c3State 7 10200 5).1 (by decide),
   (c3_immediate_hedge_on_fill c3State 9 10200 4).2 (by decide) (by decide)⟩

/-- **C10.** Debounced-hedge strategy: whenever processing a trade tick
sends a hedge order, the net exposure `position + position_future` is
exactly zero immediately afterwards. -/
theorem c10_hedge_restores_zero_exposure (s : TraderD.State)
    (i : RTG.Instrument) (seq a b : Int) (s' : TraderD.State)
    (acts : List RTG.Action)
    (h : TraderD.on_trade_ticks_message s i seq a b = some (s', acts))
    (hh : acts.any RTG.isHedge = true) :
    s'.position + s'.position_future = 0 := by
  have hpos := (traderD_update_best_fields s i seq a b).2.2.2.1
  have hfut := (traderD_update_best_fields s i seq a b).2.2.2.2.1
  simp only [TraderD.on_trade_ticks_message] at h
  split at h
  case h_2 => exact absurd h (by simp)
  case h_1 etfBid futAsk futBid etfAsk hm =>
    split_ifs at h with h1 h2 h2 <;>
      rcases h with ⟨rfl, rfl⟩ <;>
      simp_all <;> omega

/-- Witness for C10: at `c10State` (net exposure −5, crossed books) the
trade tick sends a hedge buy of 5 and the net exposure becomes 0. -/
theorem c10_hedge_restores_zero_exposure_witness :
    (TraderD.on_trade_ticks_message c10State RTG.Instrument.etf 9 10400 10300).map
      (fun p => p.1.position + p.1.position_future) = some 0 := by
  have h : TraderD.on_trade_ticks_message c10State RTG.Instrument.etf 9 10400 10300 =
      some (⟨2, [], [], -7, 7, ⟨some 10000, some 10300⟩, ⟨some 10100, some 10400⟩,
             9, [], [], 0⟩,
            [RTG.Action.hedgeOrder 1 RTG.Side.buy 2147483600 5]) := by decide
  rw [h, Option.map_some']
  exact congrArg some
    (c10_hedge_restores_zero_exposure c10State RTG.Instrument.etf 9 10400 10300
      _ _ h (by decide))

/-- **C6 (code evidence).** At the failing input — FUTURE best bid 10500
recorded, ETF book update with best ask 10000 (volume 50) and best bid 9900
(volume 3), position 0 — both strategies' arbitrage-buy branches emit the
FILL_AND_KILL buy sized by the best-BID volume (3), not by the best-ask
volume as the claim states (which would give min(50, 90) = 50 for the
single-pair strategy and min(50, 90, 15) = 15 for the ladder strategy);
the code's own log line in that branch reports `ask_volumes[0]` as the
volume. -/
theorem c6_arb_buy_sized_by_bid_volume :
    (Trader1.on_order_book_update_message c6State RTG.Instrument.etf 7
        10000 50 9900 3).map (fun p => p.2.head?) =
      some (some (RTG.Action.insertOrder 1 RTG.Side.buy 10000 3
        RTG.Lifespan.fillAndKill)) ∧
    (TraderD.on_order_book_update_message c6StateD RTG.Instrument.etf 7
        10000 50 9900 3).map Prod.snd =
      some [RTG.Action.insertOrder 1 RTG.Side.buy 10000 3
        RTG.Lifespan.fillAndKill] ∧
    (3 : Int) ≠ min 50 (Trader1.POSITION_LIMIT - 0) ∧
    (3 : Int) ≠ min 50 (min (TraderD.POSITION_LIMIT - 0) TraderD.LOT_SIZE) :=
  ⟨by decide, by decide, by decide, by decide⟩

/-- **C7.** An order-status event with zero remaining volume removes the id
from the engine's own-order tracking in both strategies, looked up by id on
both sides: afterwards the id is in neither `bids` nor `asks`, a nonzero id
no longer occupies the single-pair `bid_id`/`ask_id` slots, and in the
ladder strategy the price slot of a tracked bid is freed in `bid_prices`. -/
theorem c7_terminal_status_removes_id (s1 : Trader1.State) (sD : TraderD.State)
    (id : Nat) (f fees p : Int) :
    (id ∉ (Trader1.on_order_status_message s1 id f 0 fees).bids ∧
     id ∉ (Trader1.on_order_status_message s1 id f 0 fees).asks ∧
     (id ≠ 0 → s1.bid_id ≠ s1.ask_id ∨ s1.bid_id = 0 →
       (Trader1.on_order_status_message s1 id f 0 fees).bid_id ≠ id ∧
       (Trader1.on_order_status_message s1 id f 0 fees).ask_id ≠ id)) ∧
    (RTG.DictWF sD.bids → RTG.DictWF sD.asks →
      RTG.dmem id (TraderD.on_order_status_message sD id f 0 fees).bids = false ∧
      RTG.dmem id (TraderD.on_order_status_message sD id f 0 fees).asks = false) ∧
    (RTG.DictWF sD.bids → RTG.DictWF sD.bid_prices →
      (id, p) ∈ sD.bids → RTG.dmem id sD.asks = false → -1 ≤ p →
      RTG.dmem p (TraderD.on_order_status_message sD id f 0 fees).bid_prices
        = false) := by
  refine ⟨⟨?_, ?_, ?_⟩, ?_, ?_⟩
  · simp [Trader1.on_order_status_message]
  · simp [Trader1.on_order_status_message]
  · intro hid hds
    simp only [Trader1.on_order_status_message, if_pos rfl]
    split_ifs with h1 h2 <;> simp_all <;> omega
  · intro hwb hwa
    simp only [TraderD.on_order_status_message, if_pos rfl]
    exact ⟨RTG.dmem_dpop_eq_false id (-1) sD.bids hwb,
           RTG.dmem_dpop_eq_false id (-1) sD.asks hwa⟩
  · intro hwb hwp hmem hnasks hp
    simp only [TraderD.on_order_status_message, if_pos rfl]
    have h1 : (RTG.dpop id (-1 : Int) sD.bids).1 = p :=
      RTG.dpop_fst_of_mem id p (-1) sD.bids hwb hmem
    have h2 : RTG.dpop id (-1 : Int) sD.asks = (-1, sD.asks) :=
      RTG.dpop_of_dmem_eq_false id (-1) sD.asks hnasks
    rw [h1, h2]
    have hmax : max p (-1 : Int) = p := max_eq_left hp
    rw [hmax]
    exact RTG.dmem_dpop_eq_false p 0 sD.bid_prices hwp

/-- Witness for C7: resting bid order 3 at price 10100 in both strategies
receives a zero-remaining status event. -/
theorem c7_terminal_status_removes_id_witness :
    (3 ∉ (Trader1.on_order_status_message c7State 3 5 0 1).bids ∧
     3 ∉ (Trader1.on_order_status_message c7State 3 5 0 1).asks ∧
     ((3 : Nat) ≠ 0 → c7State.bid_id ≠ c7State.ask_id ∨ c7State.bid_id = 0 →
       (Trader1.on_order_status_message c7State 3 5 0 1).bid_id ≠ 3 ∧
       (Trader1.on_order_status_message c7State 3 5 0 1).ask_id ≠ 3)) ∧
    (RTG.dmem 3 (TraderD.on_order_status_message c7StateD 3 5 0 1).bids = false ∧
     RTG.dmem 3 (TraderD.on_order_status_message c7StateD 3 5 0 1).asks = false) ∧
    RTG.dmem (10100 : Int)
      (TraderD.on_order_status_message c7StateD 3 5 0 1).bid_prices = false :=
  ⟨(c7_terminal_status_removes_id c7State c7StateD 3 5 1 10100).1,
   (c7_terminal_status_removes_id c7State c7StateD 3 5 1 10100).2.1
     (by simp [RTG.DictWF, c7StateD, TraderD.init])
     (by simp [RTG.DictWF, c7StateD, TraderD.init]),
   (c7_terminal_status_removes_id c7State c7StateD 3 5 1 10100).2.2
     (by simp [RTG.DictWF, c7StateD, TraderD.init])
     (by simp [RTG.DictWF, c7StateD, TraderD.init])
     (by decide) (by decide) (by decide)⟩

/-- **C8.** An error event with a nonzero order id that is tracked performs
exactly the state change of a zero-remaining-volume status event for that
id; an error with id 0, or an untracked nonzero id, mutates nothing.  This
holds for both strategies. -/
theorem c8_error_event_cleanup (s1 : Trader1.State) (sD : TraderD.State)
    (id : Nat) :
    ((id ≠ 0 → (id ∈ s1.bids ∨ id ∈ s1.asks) →
        Trader1.on_error_message s1 id =
          Trader1.on_order_status_message s1 id 0 0 0) ∧
     (id = 0 ∨ (id ∉ s1.bids ∧ id ∉ s1.asks) →
        Trader1.on_error_message s1 id = s1)) ∧
    ((id ≠ 0 → (RTG.dmem id sD.bids ∨ RTG.dmem id sD.asks) →
        TraderD.on_error_message sD id =
          TraderD.on_order_status_message sD id 0 0 0) ∧
     (id = 0 ∨ (RTG.dmem id sD.bids = false ∧ RTG.dmem id sD.asks = false) →
        TraderD.on_error_message sD id = sD)) := by
  refine ⟨⟨?_, ?_⟩, ?_, ?_⟩
  · intro h1 h2
    simp [Trader1.on_error_message, h1, h2]
  · intro h
    rcases h with h | ⟨h1, h2⟩ <;> simp [Trader1.on_error_message, *]
  · intro h1 h2
    simp [TraderD.on_error_message, h1, h2]
  · intro h
    rcases h with h | ⟨h1, h2⟩ <;> simp [TraderD.on_error_message, *]

/-- Witness for C8: tracked order 3 (both strategies) is cleaned up by an
error event exactly as by a terminal status event; error id 0 mutates
nothing. -/
theorem c8_error_event_cleanup_witness :
    (Trader1.on_error_message c7State 3 =
        Trader1.on_order_status_message c7State 3 0 0 0 ∧
     Trader1.on_error_message c7State 0 = c7State) ∧
    (TraderD.on_error_message c7StateD 3 =
        TraderD.on_order_status_message c7StateD 3 0 0 0 ∧
     TraderD.on_error_message c7StateD 0 = c7StateD) :=
  ⟨⟨((c8_error_event_cleanup c7State c7StateD 3).1).1 (by decide)
      (Or.inl (by decide)),
    ((c8_error_event_cleanup c7State c7StateD 0).1).2 (Or.inl rfl)⟩,
   ((c8_error_event_cleanup c7State c7StateD 3).2).1 (by decide)
      (Or.inl (by decide)),
   ((c8_error_event_cleanup c7State c7StateD 0).2).2 (Or.inl rfl)⟩

/-- A zero-remaining status event, unfolded (single-pair strategy). -/
theorem trader1_status_zero_eq (s : Trader1.State) (id : Nat) (f fees : Int) :
    Trader1.on_order_status_message s id f 0 fees =
      (fun s1 => { s1 with bids := s1.bids.erase id, asks := s1.asks.erase id })
        (if id = s.bid_id then { s with bid_id := 0 }
         else if id = s.ask_id then { s with ask_id := 0 } else s) := rfl

/-- A zero-remaining status event, unfolded (ladder strategy). -/
theorem traderD_status_zero_eq (s : TraderD.State) (id : Nat) (f fees : Int) :
    TraderD.on_order_status_message s id f 0 fees =
      { s with
        bids := (RTG.dpop id (-1) s.bids).2,
        asks := (RTG.dpop id (-1) s.asks).2,
        bid_prices := (RTG.dpop
          (max (RTG.dpop id (-1) s.bids).1 (RTG.dpop id (-1) s.asks).1)
          0 s.bid_prices).2,
        ask_prices := (RTG.dpop
          (max (RTG.dpop id (-1) s.bids).1 (RTG.dpop id (-1) s.asks).1)
          0 s.ask_prices).2 } := rfl

/-- **C9.** Processing the same zero-remaining-volume order-status event
twice leaves the state identical to processing it once, in both strategies.
This needs the consistency every reachable state has: in the single-pair
strategy the two slots never hold the same nonzero id, and in the ladder
strategy the dicts have no duplicate keys and the sentinel price −1 (the
`pop` default) is not an actual price-map key (prices are nonnegative tick
multiples). -/
theorem c9_terminal_status_idempotent (s1 : Trader1.State) (sD : TraderD.State)
    (id : Nat) (f fees : Int)
    (hds : s1.bid_id ≠ s1.ask_id ∨ s1.bid_id = 0)
    (h1 : RTG.DictWF sD.bids) (h2 : RTG.DictWF sD.asks)
    (h3 : RTG.dmem (-1 : Int) sD.bid_prices = false)
    (h4 : RTG.dmem (-1 : Int) sD.ask_prices = false) :
    Trader1.on_order_status_message
        (Trader1.on_order_status_message s1 id f 0 fees) id f 0 fees =
      Trader1.on_order_status_message s1 id f 0 fees ∧
    TraderD.on_order_status_message
        (TraderD.on_order_status_message sD id f 0 fees) id f 0 fees =
      TraderD.on_order_status_message sD id f 0 fees := by
  constructor
  · obtain ⟨n, bs, as, ai, ap, bi, bp, pos, cb, ca, cs⟩ := s1
    rw [trader1_status_zero_eq, trader1_status_zero_eq]
    simp only at hds ⊢
    split_ifs <;> simp_all [Finset.erase_idem]
  · rw [traderD_status_zero_eq, traderD_status_zero_eq]
    dsimp only
    rw [RTG.dpop_of_dmem_eq_false id (-1)
          _ (RTG.dmem_dpop_eq_false id (-1) sD.bids h1),
        RTG.dpop_of_dmem_eq_false id (-1)
          _ (RTG.dmem_dpop_eq_false id (-1) sD.asks h2)]
    dsimp only
    rw [max_self]
    rw [RTG.dpop_of_dmem_eq_false (-1) 0
          _ (RTG.dmem_dpop_of_dmem_eq_false (-1) _ 0 sD.bid_prices h3),
        RTG.dpop_of_dmem_eq_false (-1) 0
          _ (RTG.dmem_dpop_of_dmem_eq_false (-1) _ 0 sD.ask_prices h4)]

/-- Witness for C9 at the concrete tracked-bid states. -/
theorem c9_terminal_status_idempotent_witness :
    Trader1.on_order_status_message
        (Trader1.on_order_status_message c7State 3 5 0 1) 3 5 0 1 =
      Trader1.on_order_status_message c7State 3 5 0 1 ∧
    TraderD.on_order_status_message
        (TraderD.on_order_status_message c7StateD 3 5 0 1) 3 5 0 1 =
      TraderD.on_order_status_message c7StateD 3 5 0 1 :=
  c9_terminal_status_idempotent c7State c7StateD 3 5 1
    (Or.inl (by decide))
    (by simp [RTG.DictWF, c7StateD, TraderD.init])
    (by simp [RTG.DictWF, c7StateD, TraderD.init])
    (by decide) (by decide)

/-- The single-pair reconciliation step sends only cancels and GOOD_FOR_DAY
inserts, never a FILL_AND_KILL order. -/
theorem reconcile_countP_fak (s : Trader1.State) (nb na : Int) :
    ((Trader1.reconcile s nb na).2).countP (fun x => RTG.isFakInsert x) = 0 := by
  have h1 : ∀ (t : Trader1.State) (q : Int),
      ((Trader1.cancelBidStage t q).2).countP (fun x => RTG.isFakInsert x) = 0 := by
    intro t q
    unfold Trader1.cancelBidStage
    split_ifs <;> simp [RTG.isFakInsert]
  have h2 : ∀ (t : Trader1.State) (q : Int),
      ((Trader1.cancelAskStage t q).2).countP (fun x => RTG.isFakInsert x) = 0 := by
    intro t q
    unfold Trader1.cancelAskStage
    split_ifs <;> simp [RTG.isFakInsert]
  have h3 : ∀ (t : Trader1.State) (q : Int),
      ((Trader1.insertBidStage t q).2).countP (fun x => RTG.isFakInsert x) = 0 := by
    intro t q
    unfold Trader1.insertBidStage
    split_ifs <;> simp [RTG.isFakInsert]
  have h4 : ∀ (t : Trader1.State) (q : Int),
      ((Trader1.insertAskStage t q).2).countP (fun x => RTG.isFakInsert x) = 0 := by
    intro t q
    unfold Trader1.insertAskStage
    split_ifs <;> simp [RTG.isFakInsert]
  unfold Trader1.reconcile
  simp only [List.countP_append, h1, h2, h3, h4]

/-- **C5.** Arbitrage-sell branch of the single-pair strategy: an ETF book
update with nonzero touches where `bid0 − TICK > ask(FUTURE)` and short
capacity remains emits exactly one FILL_AND_KILL order — a sell at `bid0`
sized `min(bid_volumes[0], POSITION_LIMIT + position)` — as the first
action of the cycle. -/
theorem c5_arbitrage_sell (s : Trader1.State) (seq a av b bv futAsk : Int)
    (hfa : s.curr_best_ask.future = some futAsk)
    (hb : b ≠ 0) (ha : a ≠ 0)
    (harb : b - Trader1.TICK_SIZE_IN_CENTS > futAsk)
    (hpos : s.position > -Trader1.POSITION_LIMIT) :
    (Trader1.on_order_book_update_message s RTG.Instrument.etf seq a av b bv).map
        (fun p => (p.2.head?, p.2.countP (fun x => RTG.isFakInsert x))) =
      some (some (RTG.Action.insertOrder s.nextOrderId RTG.Side.sell b
        (min bv (s.position + Trader1.POSITION_LIMIT)) RTG.Lifespan.fillAndKill),
        1) := by
  have hq : Trader1.quoteDecision s a b bv =
      some ({ s with nextOrderId := s.nextOrderId + 1,
                     asks := insert s.nextOrderId s.asks },
            [RTG.Action.insertOrder s.nextOrderId RTG.Side.sell b
              (min bv (s.position + Trader1.POSITION_LIMIT))
              RTG.Lifespan.fillAndKill],
            futAsk, 0) := by
    unfold Trader1.quoteDecision
    rw [if_pos ⟨hb, ha⟩, hfa]
    simp only []
    rw [if_pos ⟨harb, hpos⟩]
  unfold Trader1.on_order_book_update_message
  rw [if_pos rfl, hq]
  simp only [Option.map_some', List.singleton_append, List.head?_cons,
    List.countP_cons, reconcile_countP_fak, RTG.isFakInsert]
  simp
  intro x hx
  have h0 := reconcile_countP_fak
    { s with nextOrderId := s.nextOrderId + 1, asks := insert s.nextOrderId s.asks }
    futAsk 0
  rw [List.countP_eq_zero] at h0
  simpa [RTG.isFakInsert] using h0 x hx

/-- Witness for C5, the spec's concrete scenario: FUTURE (10000, 10100)
recorded, ETF book (10300, 10400) with 33 lots at the bid, position 0:
one FILL_AND_KILL sell at 10300 sized min(33, 90). -/
theorem c5_arbitrage_sell_witness :
    (Trader1.on_order_book_update_message c5State RTG.Instrument.etf 7
        10400 120 10300 33).map
        (fun p => (p.2.head?, p.2.countP (fun x => RTG.isFakInsert x))) =
      some (some (RTG.Action.insertOrder 1 RTG.Side.sell 10300
        (min 33 (0 + 90)) RTG.Lifespan.fillAndKill), 1) :=
  c5_arbitrage_sell c5State 7 10400 120 10300 33 10100 rfl
    (by decide) (by decide) (by decide) (by decide)

/-- Reconciliation against a zero (absent) target on both sides does
nothing: a zero target neither cancels nor places. -/
theorem reconcile_zero (s : Trader1.State) : Trader1.reconcile s 0 0 = (s, []) := by
  unfold Trader1.reconcile Trader1.cancelBidStage Trader1.cancelAskStage
    Trader1.insertBidStage Trader1.insertAskStage
  simp

/-- With an empty target list the ladder reconciliation cancels every
resting entry, in insertion order. -/
theorem reconcileSide_nil_targets (resting : List (Int × Nat)) :
    TraderD.reconcileSide resting [] =
      ([], resting.map (fun q => RTG.Action.cancelOrder q.2)) := by
  induction resting with
  | nil => rfl
  | cons p t ih =>
    cases p with
    | mk price oid =>
      simp [TraderD.reconcileSide, ih]

/-- The ladder quote decision on a zero touch: no orders, empty ladders. -/
theorem traderD_quoteDecision_zero (s : TraderD.State) (a b bv : Int)
    (h : b = 0 ∨ a = 0) :
    TraderD.quoteDecision s a b bv = some (s, [], [], []) := by
  unfold TraderD.quoteDecision
  rcases h with rfl | rfl <;> simp

/-- The single-pair quote decision on a zero touch. -/
theorem trader1_quoteDecision_zero (s : Trader1.State) (a b bv : Int)
    (h : b = 0 ∨ a = 0) :
    Trader1.quoteDecision s a b bv = some (s, [], 0, 0) := by
  unfold Trader1.quoteDecision
  rcases h with rfl | rfl <;> simp

/-- **C2 (counterexample).** The claim fails twice on the single-pair
strategy: (i) with resting bid 5 and an ETF update whose best bid is 0 the
engine emits no action at all — in particular it does not cancel the
resting bid; (ii) an ETF update with nonzero touches arriving before any
FUTURE best price is recorded makes the handler raise `KeyError`
(modelled `none`) instead of completing. -/
theorem c2_counterexample :
    (Trader1.on_order_book_update_message c2State RTG.Instrument.etf 7
        10100 50 0 50).map Prod.snd = some [] ∧
    c2State.bid_id = 5 ∧
    Trader1.on_order_book_update_message Trader1.init RTG.Instrument.etf 7
        10100 50 9000 50 = none :=
  ⟨by decide, rfl, by decide⟩

/-- **C2 (amended).** On an ETF book update with a zero touch both
strategies emit no new orders and complete; the ladder strategy cancels
every resting order that cycle, while the single-pair strategy cancels
nothing (a zero target leaves resting orders in place).  An ETF update with
nonzero touches arriving while the FUTURE best ask is unrecorded raises
`KeyError` in both strategies (the handler fails, mutating nothing). -/
theorem c2_amended :
    (∀ (s1 : Trader1.State) (seq a av b bv : Int), b = 0 ∨ a = 0 →
      Trader1.on_order_book_update_message s1 RTG.Instrument.etf seq a av b bv =
        some (Trader1.update_best_record s1 RTG.Instrument.etf seq a b, [])) ∧
    (∀ (sD : TraderD.State) (seq a av b bv : Int), b = 0 ∨ a = 0 →
      TraderD.on_order_book_update_message sD RTG.Instrument.etf seq a av b bv =
        some ({ TraderD.update_best_record sD RTG.Instrument.etf seq a b with
                hedge_timer :=
                  (TraderD.update_best_record sD RTG.Instrument.etf seq a b).hedge_timer
                    + 1 },
              sD.ask_prices.map (fun q => RTG.Action.cancelOrder q.2) ++
              sD.bid_prices.map (fun q => RTG.Action.cancelOrder q.2))) ∧
    (∀ (s1 : Trader1.State) (sD : TraderD.State) (seq a av b bv : Int),
      b ≠ 0 → a ≠ 0 →
      s1.curr_best_ask.future = none → sD.curr_best_ask.future = none →
      Trader1.on_order_book_update_message s1 RTG.Instrument.etf seq a av b bv
          = none ∧
      TraderD.on_order_book_update_message sD RTG.Instrument.etf seq a av b bv
          = none) := by
  refine ⟨?_, ?_, ?_⟩
  · intro s1 seq a av b bv h
    unfold Trader1.on_order_book_update_message
    rw [if_pos rfl, trader1_quoteDecision_zero s1 a b bv h]
    simp [reconcile_zero]
  · intro sD seq a av b bv h
    unfold TraderD.on_order_book_update_message
    rw [if_pos rfl, traderD_quoteDecision_zero sD a b bv h]
    simp [reconcileSide_nil_targets]
  · intro s1 sD seq a av b bv hb ha h1 hD
    constructor
    · unfold Trader1.on_order_book_update_message Trader1.quoteDecision
      rw [if_pos rfl, if_pos ⟨hb, ha⟩, h1]
    · unfold TraderD.on_order_book_update_message TraderD.quoteDecision
      rw [if_pos rfl]
      simp only [hD]
      rw [if_pos ⟨hb, ha⟩]

/-- Witness for the amended C2 at concrete states: a zero-bid update on
`c2State` (resting bid 5) completes with no actions; the same update on the
ladder state `c2StateD` cancels its three resting orders; with unrecorded
FUTURE prices both initial states fail on a nonzero-touch ETF update. -/
theorem c2_amended_witness :
    Trader1.on_order_book_update_message c2State RTG.Instrument.etf 7
        10100 50 0 50 =
      some (Trader1.update_best_record c2State RTG.Instrument.etf 7 10100 0, []) ∧
    TraderD.on_order_book_update_message c2StateD RTG.Instrument.etf 7
        10100 50 0 50 =
      some ({ TraderD.update_best_record c2StateD RTG.Instrument.etf 7 10100 0 with
              hedge_timer :=
                (TraderD.update_best_record c2StateD RTG.Instrument.etf 7 10100 0).hedge_timer
                  + 1 },
            c2StateD.ask_prices.map (fun q => RTG.Action.cancelOrder q.2) ++
            c2StateD.bid_prices.map (fun q => RTG.Action.cancelOrder q.2)) ∧
    Trader1.on_order_book_update_message Trader1.init RTG.Instrument.etf 7
        10100 50 9000 50 = none ∧
    TraderD.on_order_book_update_message TraderD.init RTG.Instrument.etf 7
        10100 50 9000 50 = none :=
  ⟨c2_amended.1 c2State 7 10100 50 0 50 (Or.inl rfl),
   c2_amended.2.1 c2StateD 7 10100 50 0 50 (Or.inl rfl),
   (c2_amended.2.2 Trader1.init TraderD.init 7 10100 50 9000 50
      (by decide) (by decide) rfl rfl).1,
   (c2_amended.2.2 Trader1.init TraderD.init 7 10100 50 9000 50
      (by decide) (by decide) rfl rfl).2⟩

/-- **C1 (counterexample).** A fill-valid run of the single-pair strategy
(every fill is for an order the engine inserted, never exceeding its open
volume) drives the position to −95: the arbitrage FILL_AND_KILL sell is
clipped to the full 90-lot short capacity, a later cycle places a resting
5-lot ask while that sell is still open, and both fill.  So order clipping
does not protect the limit against combinations of fills. -/
theorem c1_counterexample :
    (Trader1.runTrace Trader1.init [] overfillEvents).map Trader1.State.position =
      some (-95) ∧
    ¬ |(-95 : Int)| ≤ Trader1.POSITION_LIMIT :=
  ⟨by decide, by decide⟩

/-! Helper lemmas for the amended C1: every order inserted by a book-update
cycle is individually clipped to the remaining capacity on its side. -/

theorem cancelBidStage_position (s : Trader1.State) (q : Int) :
    (Trader1.cancelBidStage s q).1.position = s.position := by
  unfold Trader1.cancelBidStage
  split_ifs <;> rfl

theorem cancelAskStage_position (s : Trader1.State) (q : Int) :
    (Trader1.cancelAskStage s q).1.position = s.position := by
  unfold Trader1.cancelAskStage
  split_ifs <;> rfl

theorem insertBidStage_position (s : Trader1.State) (q : Int) :
    (Trader1.insertBidStage s q).1.position = s.position := by
  unfold Trader1.insertBidStage
  split_ifs <;> rfl

theorem cancelBidStage_acts (s : Trader1.State) (q : Int) :
    ∀ act ∈ (Trader1.cancelBidStage s q).2, act = RTG.Action.cancelOrder s.bid_id := by
  unfold Trader1.cancelBidStage
  split_ifs <;> simp

theorem cancelAskStage_acts (s : Trader1.State) (q : Int) :
    ∀ act ∈ (Trader1.cancelAskStage s q).2, act = RTG.Action.cancelOrder s.ask_id := by
  unfold Trader1.cancelAskStage
  split_ifs <;> simp

theorem insertBidStage_acts (s : Trader1.State) (q : Int) :
    ∀ act ∈ (Trader1.insertBidStage s q).2,
      act = RTG.Action.insertOrder s.nextOrderId RTG.Side.buy q
        (min Trader1.LOT_SIZE (Trader1.POSITION_LIMIT - s.position))
        RTG.Lifespan.goodForDay := by
  unfold Trader1.insertBidStage
  split_ifs <;> simp

theorem insertAskStage_acts (s : Trader1.State) (q : Int) :
    ∀ act ∈ (Trader1.insertAskStage s q).2,
      act = RTG.Action.insertOrder s.nextOrderId RTG.Side.sell q
        (min Trader1.LOT_SIZE (s.position + Trader1.POSITION_LIMIT))
        RTG.Lifespan.goodForDay := by
  unfold Trader1.insertAskStage
  split_ifs <;> simp

theorem reconcile_insert_bound (s : Trader1.State) (nb na : Int) :
    ∀ act ∈ (Trader1.reconcile s nb na).2, ∀ id side price vol ls,
      act = RTG.Action.insertOrder id side price vol ls →
      (side = RTG.Side.sell → vol ≤ Trader1.POSITION_LIMIT + s.position) ∧
      (side = RTG.Side.buy → vol ≤ Trader1.POSITION_LIMIT - s.position) := by
  intro act hact id side price vol ls heq
  unfold Trader1.reconcile at hact
  dsimp only at hact
  have hp1 := cancelBidStage_position s nb
  have hp2 := (cancelAskStage_position (Trader1.cancelBidStage s nb).1 na).trans hp1
  have hp3 := (insertBidStage_position
    (Trader1.cancelAskStage (Trader1.cancelBidStage s nb).1 na).1 nb).trans hp2
  rcases List.mem_append.mp hact with h | h4
  · rcases List.mem_append.mp h with h' | h3
    · rcases List.mem_append.mp h' with h1 | h2
      · rw [cancelBidStage_acts s nb act h1] at heq
        exact absurd heq (by simp)
      · rw [cancelAskStage_acts _ na act h2] at heq
        exact absurd heq (by simp)
    · rw [insertBidStage_acts _ nb act h3] at heq
      simp only [RTG.Action.insertOrder.injEq] at heq
      obtain ⟨rfl, rfl, rfl, rfl, rfl⟩ := heq
      constructor
      · intro hc
        exact absurd hc (by decide)
      · intro _
        rw [hp2]
        exact min_le_right _ _
  · rw [insertAskStage_acts _ na act h4] at heq
    simp only [RTG.Action.insertOrder.injEq] at heq
    obtain ⟨rfl, rfl, rfl, rfl, rfl⟩ := heq
    constructor
    · intro _
      have hmin := min_le_right Trader1.LOT_SIZE
        ((Trader1.insertBidStage (Trader1.cancelAskStage
          (Trader1.cancelBidStage s nb).1 na).1 nb).1.position + Trader1.POSITION_LIMIT)
      rw [hp3] at hmin ⊢
      omega
    · intro hc
      exact absurd hc (by decide)

theorem trader1_quoteDecision_spec (s : Trader1.State) (a b bv : Int)
    (q : Trader1.State × List RTG.Action × Int × Int)
    (h : Trader1.quoteDecision s a b bv = some q) :
    q.1.position = s.position ∧
    ∀ act ∈ q.2.1, ∀ id side price vol ls,
      act = RTG.Action.insertOrder id side price vol ls →
      (side = RTG.Side.sell → vol ≤ Trader1.POSITION_LIMIT + s.position) ∧
      (side = RTG.Side.buy → vol ≤ Trader1.POSITION_LIMIT - s.position) := by
  unfold Trader1.quoteDecision at h
  split_ifs at h with hba
  · split at h
    · exact absurd h (by simp)
    · rename_i futAsk hm
      split_ifs at h with h1
      · rcases Option.some.inj h with rfl
        refine ⟨rfl, ?_⟩
        intro act hact id side price vol ls heq
        rw [List.mem_singleton.mp hact] at heq
        simp only [RTG.Action.insertOrder.injEq] at heq
        obtain ⟨rfl, rfl, rfl, rfl, rfl⟩ := heq
        have hmin := min_le_right bv (s.position + Trader1.POSITION_LIMIT)
        exact ⟨fun _ => by omega, fun hc => absurd hc (by decide)⟩
      · split at h
        · exact absurd h (by simp)
        · rename_i futBid hm2
          split_ifs at h with h2 habs
          · rcases Option.some.inj h with rfl
            refine ⟨rfl, ?_⟩
            intro act hact id side price vol ls heq
            rw [List.mem_singleton.mp hact] at heq
            simp only [RTG.Action.insertOrder.injEq] at heq
            obtain ⟨rfl, rfl, rfl, rfl, rfl⟩ := heq
            have hmin := min_le_right bv (-s.position + Trader1.POSITION_LIMIT)
            exact ⟨fun hc => absurd hc (by decide), fun _ => by omega⟩
          · rcases Option.some.inj h with rfl
            exact ⟨rfl, by simp⟩
          · rcases Option.some.inj h with rfl
            exact ⟨rfl, by simp⟩
  · rcases Option.some.inj h with rfl
    exact ⟨rfl, by simp⟩

theorem ladder_size_bound (c len : Int) (hlen : 0 ≤ len)
    (h : 0 < (min TraderD.LOT_SIZE
        (c - (len * TraderD.LOT_SIZE).fdiv TraderD.NLADDER)).fdiv TraderD.NLADDER) :
    (min TraderD.LOT_SIZE
        (c - (len * TraderD.LOT_SIZE).fdiv TraderD.NLADDER)).fdiv TraderD.NLADDER
      ≤ c := by
  simp only [TraderD.LOT_SIZE, TraderD.NLADDER] at h ⊢
  have h3 : (0:Int) ≤ 3 := by norm_num
  have hd : (0:Int) ≤ (len * 15).fdiv 3 :=
    Int.fdiv_nonneg (by nlinarith) (by norm_num)
  have key : ∀ X : Int, 0 < (min 15 X).fdiv 3 → (min 15 X).fdiv 3 ≤ X := by
    intro X h0
    rcases le_or_lt 0 X with hX0 | hX0
    · rw [Int.fdiv_eq_ediv _ h3]
      calc (min 15 X) / 3
          ≤ X / 3 :=
            Int.ediv_le_ediv (show (0:Int) < 3 by norm_num) (min_le_right _ _)
        _ ≤ X := Int.ediv_le_self _ hX0
    · rw [min_eq_right (by omega : X ≤ 15)] at h0
      exact absurd h0 (not_lt.mpr (le_of_lt (Int.fdiv_neg' hX0 (by norm_num))))
  have hk := key (c - (len * 15).fdiv 3) h
  omega

theorem insertLadder_acts (side : RTG.Side) (size : Int) :
    ∀ (targets : List Int) (n : Nat) (pm : List (Int × Nat)) (om : List (Nat × Int)),
      ∀ act ∈ (TraderD.insertLadder n side size targets pm om).2.2.2,
      ∃ id price, act = RTG.Action.insertOrder id side price size
        RTG.Lifespan.goodForDay := by
  intro targets
  induction targets with
  | nil =>
    intro n pm om act h
    simp [TraderD.insertLadder] at h
  | cons p rest ih =>
    intro n pm om act h
    simp only [TraderD.insertLadder] at h
    rcases List.mem_cons.mp h with h | h
    · exact ⟨n, p, h⟩
    · exact ih _ _ _ act h

theorem reconcileSide_acts (resting : List (Int × Nat)) :
    ∀ (targets : List Int), ∀ act ∈ (TraderD.reconcileSide resting targets).2,
      ∃ id, act = RTG.Action.cancelOrder id := by
  induction resting with
  | nil =>
    intro targets act h
    simp [TraderD.reconcileSide] at h
  | cons p rest ih =>
    intro targets act h
    cases p with
    | mk price oid =>
      simp only [TraderD.reconcileSide] at h
      by_cases hp : price ∈ targets
      · rw [if_pos hp] at h
        exact ih _ act h
      · rw [if_neg hp] at h
        rcases List.mem_cons.mp h with h | h
        · exact ⟨oid, h⟩
        · exact ih _ act h

theorem traderD_quoteDecision_spec (s : TraderD.State) (a b bv : Int)
    (q : TraderD.State × List RTG.Action × List Int × List Int)
    (h : TraderD.quoteDecision s a b bv = some q) :
    q.1.position = s.position ∧
    ∀ act ∈ q.2.1, ∀ id side price vol ls,
      act = RTG.Action.insertOrder id side price vol ls →
      (side = RTG.Side.sell → vol ≤ TraderD.POSITION_LIMIT + s.position) ∧
      (side = RTG.Side.buy → vol ≤ TraderD.POSITION_LIMIT - s.position) := by
  unfold TraderD.quoteDecision at h
  split_ifs at h with hba
  · split at h
    · exact absurd h (by simp)
    · rename_i futAsk hm
      split_ifs at h with h1
      · rcases Option.some.inj h with rfl
        refine ⟨rfl, ?_⟩
        intro act hact id side price vol ls heq
        rw [List.mem_singleton.mp hact] at heq
        simp only [RTG.Action.insertOrder.injEq] at heq
        obtain ⟨rfl, rfl, rfl, rfl, rfl⟩ := heq
        have hm1 := min_le_right bv
          (min (s.position + TraderD.POSITION_LIMIT) TraderD.LOT_SIZE)
        have hm2 := min_le_left (s.position + TraderD.POSITION_LIMIT) TraderD.LOT_SIZE
        exact ⟨fun _ => by omega, fun hc => absurd hc (by decide)⟩
      · split at h
        · exact absurd h (by simp)
        · rename_i futBid hm2
          split_ifs at h with h2 habs
          · rcases Option.some.inj h with rfl
            refine ⟨rfl, ?_⟩
            intro act hact id side price vol ls heq
            rw [List.mem_singleton.mp hact] at heq
            simp only [RTG.Action.insertOrder.injEq] at heq
            obtain ⟨rfl, rfl, rfl, rfl, rfl⟩ := heq
            have hm1 := min_le_right bv
              (min (-s.position + TraderD.POSITION_LIMIT) TraderD.LOT_SIZE)
            have hm3 := min_le_left (-s.position + TraderD.POSITION_LIMIT) TraderD.LOT_SIZE
            exact ⟨fun hc => absurd hc (by decide), fun _ => by omega⟩
          · rcases Option.some.inj h with rfl
            exact ⟨rfl, by simp⟩
          · rcases Option.some.inj h with rfl
            exact ⟨rfl, by simp⟩
  · rcases Option.some.inj h with rfl
    exact ⟨rfl, by simp⟩

/-- **C1 (amended).** Order sizes are clipped per order at send time: every
order a book-update cycle inserts (either strategy) is individually sized
within the remaining capacity of its side — a sell at most
`POSITION_LIMIT + position`, a buy at most `POSITION_LIMIT − position` —
so a single fill of one freshly placed order cannot breach the limit; the
original claim's stronger guarantee over combinations of fills is refuted
by `c1_counterexample`. -/
theorem c1_amended_per_order_clipping :
    (∀ (s : Trader1.State) (i : RTG.Instrument) (seq a av b bv : Int),
      ∀ act ∈ ((Trader1.on_order_book_update_message s i seq a av b bv).map
          Prod.snd).getD [],
        ∀ id side price vol ls,
          act = RTG.Action.insertOrder id side price vol ls →
          (side = RTG.Side.sell → vol ≤ Trader1.POSITION_LIMIT + s.position) ∧
          (side = RTG.Side.buy → vol ≤ Trader1.POSITION_LIMIT - s.position)) ∧
    (∀ (s : TraderD.State) (i : RTG.Instrument) (seq a av b bv : Int),
      ∀ act ∈ ((TraderD.on_order_book_update_message s i seq a av b bv).map
          Prod.snd).getD [],
        ∀ id side price vol ls,
          act = RTG.Action.insertOrder id side price vol ls →
          (side = RTG.Side.sell → vol ≤ TraderD.POSITION_LIMIT + s.position) ∧
          (side = RTG.Side.buy → vol ≤ TraderD.POSITION_LIMIT - s.position)) := by
  constructor
  · intro s i seq a av b bv act hact id side price vol ls heq
    unfold Trader1.on_order_book_update_message at hact
    split_ifs at hact with hi
    · rcases hq : Trader1.quoteDecision s a b bv with _ | q
      · rw [hq] at hact
        simp at hact
      · rw [hq] at hact
        obtain ⟨s1, acts1, nb, na⟩ := q
        simp only [Option.map_some', Option.getD_some] at hact
        have hspec := trader1_quoteDecision_spec s a b bv (s1, acts1, nb, na) hq
        rcases List.mem_append.mp hact with hmem | hmem
        · exact hspec.2 act hmem id side price vol ls heq
        · have hb := reconcile_insert_bound s1 nb na act hmem id side price vol ls heq
          rw [hspec.1] at hb
          exact hb
    · simp at hact
  · intro s i seq a av b bv act hact id side price vol ls heq
    unfold TraderD.on_order_book_update_message at hact
    split_ifs at hact with hi
    · rcases hq : TraderD.quoteDecision s a b bv with _ | q
      · rw [hq] at hact
        simp at hact
      · rw [hq] at hact
        obtain ⟨s1, acts1, nbp, nap⟩ := q
        simp only [Option.map_some', Option.getD_some] at hact
        have hspec := traderD_quoteDecision_spec s a b bv (s1, acts1, nbp, nap) hq
        rcases List.mem_append.mp hact with h | hia
        · rcases List.mem_append.mp h with h | hib
          · rcases List.mem_append.mp h with h | hrb
            · rcases List.mem_append.mp h with ha1 | hra
              · exact hspec.2 act ha1 id side price vol ls heq
              · obtain ⟨cid, hcid⟩ := reconcileSide_acts s1.ask_prices _ act hra
                rw [hcid] at heq
                exact absurd heq (by simp)
            · obtain ⟨cid, hcid⟩ := reconcileSide_acts s1.bid_prices _ act hrb
              rw [hcid] at heq
              exact absurd heq (by simp)
          · split at hib
            · rename_i hc
              obtain ⟨id', price', hact'⟩ :=
                insertLadder_acts RTG.Side.buy _ _ _ _ _ act hib
              rw [hact'] at heq
              simp only [RTG.Action.insertOrder.injEq] at heq
              obtain ⟨rfl, rfl, rfl, rfl, rfl⟩ := heq
              have hsz := ladder_size_bound (TraderD.POSITION_LIMIT - s1.position)
                (s1.bids.length : Int) (Int.ofNat_nonneg _) hc.1
              refine ⟨fun hcs => absurd hcs (by decide), fun _ => ?_⟩
              rw [← hspec.1]
              exact hsz
            · simp at hib
        · split at hia
          · rename_i hc
            obtain ⟨id', price', hact'⟩ :=
              insertLadder_acts RTG.Side.sell _ _ _ _ _ act hia
            rw [hact'] at heq
            simp only [RTG.Action.insertOrder.injEq] at heq
            obtain ⟨rfl, rfl, rfl, rfl, rfl⟩ := heq
            have hsz := ladder_size_bound (s1.position + TraderD.POSITION_LIMIT)
              (s1.asks.length : Int) (Int.ofNat_nonneg _) hc.1
            refine ⟨fun _ => ?_, fun hcs => absurd hcs (by decide)⟩
            rw [← hspec.1]
            dsimp only
            omega
          · simp at hia
    · simp at hact

/-- Witness for the amended C1 at the `c6State` inputs: the emitted
FILL_AND_KILL buy of 3 lots respects the long capacity 90 in both
strategies. -/
theorem c1_amended_per_order_clipping_witness :
    ((RTG.Side.buy = RTG.Side.sell →
        (3:Int) ≤ Trader1.POSITION_LIMIT + c6State.position) ∧
     (RTG.Side.buy = RTG.Side.buy →
        (3:Int) ≤ Trader1.POSITION_LIMIT - c6State.position)) ∧
    ((RTG.Side.buy = RTG.Side.sell →
        (3:Int) ≤ TraderD.POSITION_LIMIT + c6StateD.position) ∧
     (RTG.Side.buy = RTG.Side.buy →
        (3:Int) ≤ TraderD.POSITION_LIMIT - c6StateD.position)) :=
  ⟨c1_amended_per_order_clipping.1 c6State RTG.Instrument.etf 7 10000 50 9900 3
     (RTG.Action.insertOrder 1 RTG.Side.buy 10000 3 RTG.Lifespan.fillAndKill)
     (by decide) 1 RTG.Side.buy 10000 3 RTG.Lifespan.fillAndKill rfl,
   c1_amended_per_order_clipping.2 c6StateD RTG.Instrument.etf 7 10000 50 9900 3
     (RTG.Action.insertOrder 1 RTG.Side.buy 10000 3 RTG.Lifespan.fillAndKill)
     (by decide) 1 RTG.Side.buy 10000 3 RTG.Lifespan.fillAndKill rfl⟩

/-! ## Helper lemmas for C4: preservation of the engine/venue coupling
invariant by each reconciliation stage and each event. -/

theorem filter_ne_singleton (x id : Nat) :
    List.filter (fun i => i ≠ id) [x] = if x = id then [] else [x] := by
  by_cases h : x = id <;> simp [h]

theorem cancelBidStage_inv (s : Trader1.State) (v : Trader1.Venue) (nb : Int)
    (h : Trader1.Inv s v) :
    Trader1.Inv (Trader1.cancelBidStage s nb).1
      ((Trader1.cancelBidStage s nb).2.foldl Trader1.applyAction v) := by
  obtain ⟨n, bs, as, ai, ap, bi, bp, pos, cb, ca, cs⟩ := s
  obtain ⟨gb, ga⟩ := v
  obtain ⟨h1, h2, h3, h4, h5, h6, h7⟩ := h
  simp only at h1 h2 h3 h4 h5 h6 h7
  subst h1
  subst h2
  unfold Trader1.cancelBidStage Trader1.applyAction Trader1.Inv
  by_cases hbi : bi = 0 <;> by_cases hai : ai = 0 <;>
    split_ifs <;> simp_all <;> omega

theorem cancelAskStage_inv (s : Trader1.State) (v : Trader1.Venue) (na : Int)
    (h : Trader1.Inv s v) :
    Trader1.Inv (Trader1.cancelAskStage s na).1
      ((Trader1.cancelAskStage s na).2.foldl Trader1.applyAction v) := by
  obtain ⟨n, bs, as, ai, ap, bi, bp, pos, cb, ca, cs⟩ := s
  obtain ⟨gb, ga⟩ := v
  obtain ⟨h1, h2, h3, h4, h5, h6, h7⟩ := h
  simp only at h1 h2 h3 h4 h5 h6 h7
  subst h1
  subst h2
  unfold Trader1.cancelAskStage Trader1.applyAction Trader1.Inv
  by_cases hbi : bi = 0 <;> by_cases hai : ai = 0 <;>
    split_ifs <;> simp_all <;> omega

theorem insertBidStage_inv (s : Trader1.State) (v : Trader1.Venue) (nb : Int)
    (h : Trader1.Inv s v) :
    Trader1.Inv (Trader1.insertBidStage s nb).1
      ((Trader1.insertBidStage s nb).2.foldl Trader1.applyAction v) := by
  obtain ⟨n, bs, as, ai, ap, bi, bp, pos, cb, ca, cs⟩ := s
  obtain ⟨gb, ga⟩ := v
  obtain ⟨h1, h2, h3, h4, h5, h6, h7⟩ := h
  simp only at h1 h2 h3 h4 h5 h6 h7
  subst h1
  subst h2
  unfold Trader1.insertBidStage Trader1.applyAction Trader1.Inv
  by_cases hbi : bi = 0 <;> by_cases hai : ai = 0 <;>
    split_ifs <;> simp_all <;> omega

theorem insertAskStage_inv (s : Trader1.State) (v : Trader1.Venue) (na : Int)
    (h : Trader1.Inv s v) :
    Trader1.Inv (Trader1.insertAskStage s na).1
      ((Trader1.insertAskStage s na).2.foldl Trader1.applyAction v) := by
  obtain ⟨n, bs, as, ai, ap, bi, bp, pos, cb, ca, cs⟩ := s
  obtain ⟨gb, ga⟩ := v
  obtain ⟨h1, h2, h3, h4, h5, h6, h7⟩ := h
  simp only at h1 h2 h3 h4 h5 h6 h7
  subst h1
  subst h2
  unfold Trader1.insertAskStage Trader1.applyAction Trader1.Inv
  by_cases hbi : bi = 0 <;> by_cases hai : ai = 0 <;>
    split_ifs <;> simp_all <;> omega

theorem reconcile_inv (s : Trader1.State) (v : Trader1.Venue) (nb na : Int)
    (h : Trader1.Inv s v) :
    Trader1.Inv (Trader1.reconcile s nb na).1
      ((Trader1.reconcile s nb na).2.foldl Trader1.applyAction v) := by
  unfold Trader1.reconcile
  dsimp only
  simp only [List.foldl_append]
  exact insertAskStage_inv _ _ na
    (insertBidStage_inv _ _ nb (cancelAskStage_inv _ _ na (cancelBidStage_inv s v nb h)))

theorem update_best_record_inv (s : Trader1.State) (v : Trader1.Venue)
    (i : RTG.Instrument) (q a b : Int) (h : Trader1.Inv s v) :
    Trader1.Inv (Trader1.update_best_record s i q a b) v := by
  have hf := trader1_update_best_fields s i q a b
  unfold Trader1.Inv
  rw [hf.1, hf.2.1, hf.2.2.1, hf.2.2.2.1, hf.2.2.2.2.2.1]
  exact h

theorem quoteDecision_inv (s : Trader1.State) (v : Trader1.Venue) (a b bv : Int)
    (q : Trader1.State × List RTG.Action × Int × Int)
    (hq : Trader1.quoteDecision s a b bv = some q)
    (h : Trader1.Inv s v) :
    Trader1.Inv q.1 (q.2.1.foldl Trader1.applyAction v) := by
  obtain ⟨h1, h2, h3, h4, h5, h6, h7⟩ := h
  unfold Trader1.quoteDecision at hq
  split_ifs at hq with hba
  · split at hq
    · exact absurd hq (by simp)
    · rename_i futAsk hm
      split_ifs at hq with hc1
      · rcases Option.some.inj hq with rfl
        simp only [List.foldl_cons, List.foldl_nil]
        dsimp only [Trader1.applyAction]
        unfold Trader1.Inv
        dsimp only
        exact ⟨h1, h2, h3, fun hne => Finset.mem_insert_of_mem (h4 hne),
          by omega, by omega, h7⟩
      · split at hq
        · exact absurd hq (by simp)
        · rename_i futBid hm2
          split_ifs at hq with hc2 habs
          · rcases Option.some.inj hq with rfl
            simp only [List.foldl_cons, List.foldl_nil]
            dsimp only [Trader1.applyAction]
            unfold Trader1.Inv
            dsimp only
            exact ⟨h1, h2, fun hne => Finset.mem_insert_of_mem (h3 hne), h4,
              by omega, by omega, h7⟩
          · rcases Option.some.inj hq with rfl
            exact ⟨h1, h2, h3, h4, h5, h6, h7⟩
          · rcases Option.some.inj hq with rfl
            exact ⟨h1, h2, h3, h4, h5, h6, h7⟩
  · rcases Option.some.inj hq with rfl
    exact ⟨h1, h2, h3, h4, h5, h6, h7⟩

theorem status_zero_inv (s : Trader1.State) (v : Trader1.Venue) (id : Nat)
    (f fees : Int) (h : Trader1.Inv s v) :
    Trader1.Inv (Trader1.on_order_status_message s id f 0 fees)
      (Trader1.venueRemove v id) := by
  obtain ⟨n, bs, as, ai, ap, bi, bp, pos, cb, ca, cs⟩ := s
  obtain ⟨gb, ga⟩ := v
  obtain ⟨h1, h2, h3, h4, h5, h6, h7⟩ := h
  simp only at h1 h2 h3 h4 h5 h6 h7
  subst h1
  subst h2
  rw [trader1_status_zero_eq]
  unfold Trader1.venueRemove Trader1.Inv
  by_cases hbi : bi = 0 <;> by_cases hai : ai = 0 <;>
    split_ifs <;> simp_all [Finset.mem_erase] <;> omega

theorem book_update_inv (s : Trader1.State) (v : Trader1.Venue)
    (i : RTG.Instrument) (seq a av b bv : Int)
    (p : Trader1.State × List RTG.Action) (h : Trader1.Inv s v)
    (hres : Trader1.on_order_book_update_message s i seq a av b bv = some p) :
    Trader1.Inv p.1 (p.2.foldl Trader1.applyAction v) := by
  unfold Trader1.on_order_book_update_message at hres
  split_ifs at hres with hi
  · rcases hq : Trader1.quoteDecision s a b bv with _ | q
    · rw [hq] at hres
      exact absurd hres (by simp)
    · rw [hq] at hres
      obtain ⟨s1, acts1, nb, na⟩ := q
      dsimp only at hres
      rcases Option.some.inj hres with rfl
      dsimp only
      simp only [List.foldl_append]
      exact update_best_record_inv _ _ i seq a b
        (reconcile_inv s1 (acts1.foldl Trader1.applyAction v) nb na
          (quoteDecision_inv s v a b bv (s1, acts1, nb, na) hq h))
  · rcases Option.some.inj hres with rfl
    dsimp only
    simp only [List.foldl_nil]
    exact update_best_record_inv s v i seq a b h

/-- **C4.** Single-pair strategy, synchronous venue model: processing any
event preserves the coupling invariant between the engine state and the
venue's resting GOOD_FOR_DAY orders, and afterwards at most one resting
bid and at most one resting ask of the engine's own exist.  The
reconciliation step cancels a stale resting order (its cancel precedes the
replacement insert in the emitted action order) and inserts on a side only
when that side's slot is free, which is what makes the invariant go
through. -/
theorem c4_at_most_one_resting_per_side (s : Trader1.State) (v : Trader1.Venue)
    (e : RTG.Event) (h : Trader1.Inv s v) :
    Trader1.Inv (Trader1.stepWithVenue s v e).1 (Trader1.stepWithVenue s v e).2 ∧
    (Trader1.stepWithVenue s v e).2.gfdBids.length ≤ 1 ∧
    (Trader1.stepWithVenue s v e).2.gfdAsks.length ≤ 1 := by
  have main : Trader1.Inv (Trader1.stepWithVenue s v e).1
      (Trader1.stepWithVenue s v e).2 := by
    cases e with
    | bookUpdate i seq a av b bv =>
      unfold Trader1.stepWithVenue Trader1.venueEvent
      dsimp only
      rcases hst : Trader1.step s (RTG.Event.bookUpdate i seq a av b bv) with _ | p
      · exact h
      · exact book_update_inv s v i seq a av b bv p h hst
    | tradeTicks i seq a av b bv =>
      exact update_best_record_inv s v i seq a b h
    | orderFilled id pr vol =>
      obtain ⟨h1, h2, h3, h4, h5, h6, h7⟩ := h
      unfold Trader1.stepWithVenue Trader1.step Trader1.venueEvent
        Trader1.on_order_filled_message
      dsimp only
      split_ifs with hb ha
      all_goals
        simp only [List.foldl_cons, List.foldl_nil]
        try dsimp only [Trader1.applyAction]
        unfold Trader1.Inv
        try dsimp only
        exact ⟨h1, h2, h3, h4, by omega, by omega, h7⟩
    | orderStatus id f r fees =>
      by_cases hr : r = 0
      · subst hr
        exact status_zero_inv s v id f fees h
      · unfold Trader1.stepWithVenue Trader1.step Trader1.venueEvent
          Trader1.on_order_status_message
        dsimp only
        rw [if_neg hr, if_neg hr]
        simp only [List.foldl_nil]
        exact h
    | hedgeFilled id pr vol =>
      exact h
    | errorMessage id =>
      by_cases hc : id ≠ 0 ∧ (id ∈ s.bids ∨ id ∈ s.asks)
      · unfold Trader1.stepWithVenue Trader1.step Trader1.venueEvent
          Trader1.on_error_message
        dsimp only
        rw [if_pos hc]
        simp only [List.foldl_nil]
        exact status_zero_inv s v id 0 0 h
      · unfold Trader1.stepWithVenue Trader1.step Trader1.venueEvent
          Trader1.on_error_message
        dsimp only
        rw [if_neg hc]
        simp only [List.foldl_nil]
        obtain ⟨h1, h2, h3, h4, h5, h6, h7⟩ := h
        push_neg at hc
        refine ⟨?_, ?_, h3, h4, h5, h6, h7⟩
        · unfold Trader1.venueRemove
          dsimp only
          rw [h1]
          by_cases hbi : s.bid_id = 0
          · simp [hbi]
          · have hne : s.bid_id ≠ id := by
              intro heq
              rcases Nat.eq_zero_or_pos id with rfl | hidpos
              · exact hbi heq
              · exact (hc (by omega)).1 (heq ▸ h3 hbi)
            rw [if_neg hbi, filter_ne_singleton, if_neg hne]
        · unfold Trader1.venueRemove
          dsimp only
          rw [h2]
          by_cases hai : s.ask_id = 0
          · simp [hai]
          · have hne : s.ask_id ≠ id := by
              intro heq
              rcases Nat.eq_zero_or_pos id with rfl | hidpos
              · exact hai heq
              · exact (hc (by omega)).2 (heq ▸ h4 hai)
            rw [if_neg hai, filter_ne_singleton, if_neg hne]
  refine ⟨main, ?_, ?_⟩
  · rw [main.1]
    split_ifs <;> simp
  · rw [main.2.1]
    split_ifs <;> simp

/-- Witness for C4: the initial state with an empty venue satisfies the
invariant, and processing a FUTURE book update keeps it with at most one
resting order per side. -/
theorem c4_at_most_one_resting_per_side_witness :
    Trader1.Inv
      (Trader1.stepWithVenue Trader1.init Trader1.Venue.empty
        (RTG.Event.bookUpdate RTG.Instrument.future 1 10100 50 10000 50)).1
      (Trader1.stepWithVenue Trader1.init Trader1.Venue.empty
        (RTG.Event.bookUpdate RTG.Instrument.future 1 10100 50 10000 50)).2 ∧
    (Trader1.stepWithVenue Trader1.init Trader1.Venue.empty
        (RTG.Event.bookUpdate RTG.Instrument.future 1 10100 50 10000 50)).2.gfdBids.length ≤ 1 ∧
    (Trader1.stepWithVenue Trader1.init Trader1.Venue.empty
        (RTG.Event.bookUpdate RTG.Instrument.future 1 10100 50 10000 50)).2.gfdAsks.length ≤ 1 :=
  c4_at_most_one_resting_per_side Trader1.init Trader1.Venue.empty
    (RTG.Event.bookUpdate RTG.Instrument.future 1 10100 50 10000 50)
    (by unfold Trader1.Inv
        exact ⟨rfl, rfl, by decide, by decide, by decide, by decide, by decide⟩)
